import Mathlib

/-!
# docker-registry-mirror: a shallow embedding of `main.go`

The program reads a YAML configuration, optionally writes `./registry.conf`,
builds one shared `skopeo sync` command line and then loops forever: query the
source catalog, run the command once per repository, sleep.

Go strings are modelled by `String`, the process globals by `Globals`, and
everything outside the process (environment, files, the YAML and JSON decoders,
the HTTP client, the shell) by `World`.  Every function takes the world and
returns the new world together with its Go results; a Go `error` is an
`Option String` (`none` is `nil`).  The effects a run has on the outside are
appended to `World.trace`.
-/

namespace RegistryMirror

/-! ## Data model -/

/-- Connection parameters of one registry (`type Config struct`). -/
structure Config where
  Host : String
  User : String
  Pass : String
  Transport : String
  Ssl : Bool
  Api : String
deriving DecidableEq

/-- Both endpoints (`type ConfigFile struct`). -/
structure ConfigFile where
  Src : Config
  Dest : Config
deriving DecidableEq

/-- Go zero value of `Config`: empty strings and `false`. -/
def Config.zero : Config :=
  ⟨"", "", "", "", false, ""⟩

/-- Go zero value of `ConfigFile`, the value of `var tmpc ConfigFile`. -/
def ConfigFile.zero : ConfigFile :=
  ⟨Config.zero, Config.zero⟩

/-- Package-level variables `srcConfig`, `destConfig`, `skopeoSyncCmd`. -/
structure Globals where
  srcConfig : Config
  destConfig : Config
  skopeoSyncCmd : String
deriving DecidableEq

/-- State of the package-level variables when `main` starts. -/
def Globals.zero : Globals :=
  ⟨Config.zero, Config.zero, ""⟩

/-! ## The outside world -/

/-- Keys of one endpoint mapping as they occur in a decoded YAML document;
`none` is a key that the document does not have. -/
structure YamlEndpoint where
  host : Option String
  user : Option String
  pass : Option String
  transport : Option String
  ssl : Option Bool
  api : Option String

/-- Decoded YAML document with its optional `src` and `dest` mappings. -/
structure YamlDoc where
  src : Option YamlEndpoint
  dest : Option YamlEndpoint

/-- What `http.NewRequest` followed by `http.DefaultClient.Do` yields. -/
inductive HttpResult where
  | requestError (err : String)
  | transportError (err : String)
  | response (StatusCode : Nat) (Status : String) (Body : Except String String)

/-- What `exec.Command("sh", "-c", cmdstr).Run()` yields. -/
inductive ExecResult where
  | exited (stdout : String)
  | failed (err : String) (stderr : String)

/-- Observable effects of the process. -/
inductive Event where
  | readFile (path : String)
  | stat (path : String)
  | create (path : String)
  | write (path : String) (content : String)
  | httpGet (url : String)
  | exec (cmdstr : String)
  | sleep (nanoseconds : Int)
deriving DecidableEq

/-- Everything the process talks to.  `httpDo` and `run` are indexed by the
number of earlier calls, so that each call may have its own outcome.
`yamlDecode`, `jsonDecode` and `quote` are the library functions
`yaml.Unmarshal`, `json.Unmarshal` and `strconv.Quote`, taken as given. -/
structure World where
  lookupEnv : String → Option String
  files : List (String × String)
  createError : Option String
  writeError : Option (Nat × String)
  yamlDecode : String → Except String YamlDoc
  jsonDecode : String → Except String (List String)
  quote : String → String
  httpDo : Nat → String → HttpResult
  run : Nat → String → ExecResult
  httpCalls : Nat
  runCalls : Nat
  trace : List Event

/-- Append one effect to the trace. -/
def World.emit (w : World) (e : Event) : World :=
  { w with trace := w.trace ++ [e] }

/-! ## Library functions used by the program -/

/-- Pieces of a character list between the occurrences of a separator. -/
def splitChars (sep : Char) : List Char → List (List Char)
  | [] => [[]]
  | c :: cs =>
    if c = sep then [] :: splitChars sep cs
    else match splitChars sep cs with
      | [] => [[c]]
      | p :: ps => (c :: p) :: ps

/-- Go `strings.Split` for a separator of one character. -/
def Split (s : String) (sep : Char) : List String :=
  (splitChars sep s.data).map String.mk

/-- Character-level counterpart of `Join` with a separator of one character. -/
def joinChars (sep : Char) : List (List Char) → List Char
  | [] => []
  | [a] => a
  | a :: b :: rest => a ++ sep :: joinChars sep (b :: rest)

/-- One step of the lexical cleaning of a path: the cleaned segments so far,
last first, after one more segment.  Empty segments and `.` are dropped and
`..` removes the segment before it. -/
def cleanStep (rooted : Bool) (acc : List (List Char)) (seg : List Char) : List (List Char) :=
  if seg = [] ∨ seg = ['.'] then acc
  else if seg = ['.', '.'] then
    match acc with
    | [] => if rooted then [] else [seg]
    | top :: rest => if top = ['.', '.'] then seg :: acc else rest
  else seg :: acc

/-- The lexically cleaned form of a path, as Go `path.Clean` computes it; two
paths with the same cleaned form name the same file (links are not
modelled). -/
def cleanPath (p : String) : String :=
  let rooted : Bool := p.data.head? = some '/'
  let segs := ((splitChars '/' p.data).foldl (cleanStep rooted) []).reverse
  let body := joinChars '/' segs
  if rooted then String.mk ('/' :: body)
  else if body = [] then "." else String.mk body

/-- Content of the file at a path, `none` when there is no such file. -/
def lookupFile : List (String × String) → String → Option String
  | [], _ => none
  | (q, c) :: rest, p => if cleanPath q = cleanPath p then some c else lookupFile rest p

/-- Files after the file at a path got a new content. -/
def storeFile (fs : List (String × String)) (p : String) (content : String) :
    List (String × String) :=
  (cleanPath p, content) :: fs.filter (fun f => cleanPath f.1 ≠ cleanPath p)

/-- Go `strings.Join`. -/
def Join : List String → String → String
  | [], _ => ""
  | [a], _ => a
  | a :: b :: rest, sep => a ++ sep ++ Join (b :: rest) sep

/-- Value of a decimal digit. -/
def digitValue (c : Char) : Option Nat :=
  if '0' ≤ c ∧ c ≤ '9' then some (c.toNat - 48) else none

/-- Value of a run of decimal digits read left to right. -/
def foldDigits : Nat → List Char → Option Nat
  | acc, [] => some acc
  | acc, c :: cs =>
    match digitValue c with
    | none => none
    | some d => foldDigits (acc * 10 + d) cs

/-- Sign and remaining characters of a numeral. -/
def splitSign : List Char → Bool × List Char
  | '-' :: rest => (true, rest)
  | '+' :: rest => (false, rest)
  | rest => (false, rest)

/-- The errors `strconv.ErrSyntax` and `strconv.ErrRange`. -/
inductive ConvErr where
  | ErrSyntax
  | ErrRange
deriving DecidableEq

/-- Go `strconv.NumError`: the failing function, the input and the error. -/
structure NumError where
  Func : String
  Num : String
  Err : ConvErr
deriving DecidableEq

/-- Go `(*NumError).Error`; the input is quoted by `strconv.Quote`. -/
def NumError.Error (quote : String → String) (e : NumError) : String :=
  "strconv." ++ e.Func ++ ": parsing " ++ quote e.Num ++ ": " ++
    (match e.Err with
      | .ErrSyntax => "invalid syntax"
      | .ErrRange => "value out of range")

/-- Go `strconv.Atoi` where `int` has 64 bits: an optional sign followed by
one or more decimal digits, within the range of `int64`. -/
def Atoi (s : String) : Except NumError Int :=
  let (neg, ds) := splitSign s.data
  if ds = [] then
    .error ⟨"Atoi", s, .ErrSyntax⟩
  else
    match foldDigits 0 ds with
    | none => .error ⟨"Atoi", s, .ErrSyntax⟩
    | some n =>
      if neg then
        if n ≤ 2 ^ 63 then .ok (-(n : Int))
        else .error ⟨"Atoi", s, .ErrRange⟩
      else
        if n < 2 ^ 63 then .ok (n : Int)
        else .error ⟨"Atoi", s, .ErrRange⟩

/-- Two's complement value of an integer in 64 bits. -/
def wrapInt64 (x : Int) : Int :=
  (x + 2 ^ 63) % 2 ^ 64 - 2 ^ 63

/-- Go `time.Second`, in nanoseconds. -/
def Second : Int := 1000000000

/-- The expression `time.Duration(interval) * time.Second` of `main`, an
`int64` multiplication. -/
def sleepDuration (interval : Int) : Int :=
  wrapInt64 (wrapInt64 interval * Second)

/-- Fields of a YAML mapping stored into a `Config`; a field whose key is
missing keeps the value it had (as `yaml.Unmarshal` does). -/
def decodeEndpoint (y : YamlEndpoint) (c : Config) : Config :=
  { Host := y.host.getD c.Host
    User := y.user.getD c.User
    Pass := y.pass.getD c.Pass
    Transport := y.transport.getD c.Transport
    Ssl := y.ssl.getD c.Ssl
    Api := y.api.getD c.Api }

/-- Decoded document stored into a `ConfigFile`. -/
def decodeConfigFile (d : YamlDoc) (c : ConfigFile) : ConfigFile :=
  { Src := match d.src with
      | some y => decodeEndpoint y c.Src
      | none => c.Src
    Dest := match d.dest with
      | some y => decodeEndpoint y c.Dest
      | none => c.Dest }

/-! ## registry.conf -/

/-- Result of executing `insecureRegistryTemplate1` on a `Config`. -/
def insecureRegistryTemplate1 (c : Config) : String :=
  "[registries.insecure]\nregistries = [\x27" ++ c.Host ++ "\x27]\n"

/-- Result of executing `insecureRegistryTemplate2` on a `ConfigFile`. -/
def insecureRegistryTemplate2 (c : ConfigFile) : String :=
  "[registries.insecure]\nregistries = [\x27" ++ c.Src.Host ++ "\x27, \x27" ++ c.Dest.Host
    ++ "\x27]\n"

/-- Shared body of `createSkopeoConfig1` and `createSkopeoConfig2`: create
`./registry.conf` with `os.Create`, then write the executed template. -/
def createSkopeoConfig (w : World) (text : String) : World × Option String :=
  let filename := "./registry.conf"
  match w.createError with
  | some e => (w, some e)
  | none =>
    let w1 := { w with files := storeFile w.files filename "" }.emit (Event.create filename)
    match w1.writeError with
    | some (n, e) =>
      let part := String.mk (text.data.take n)
      ({ w1 with files := storeFile w1.files filename part }.emit (Event.write filename part),
        some e)
    | none =>
      ({ w1 with files := storeFile w1.files filename text }.emit (Event.write filename text),
        none)

/-- Go `createSkopeoConfig1`. -/
def createSkopeoConfig1 (w : World) (c : Config) : World × Option String :=
  createSkopeoConfig w (insecureRegistryTemplate1 c)

/-- Go `createSkopeoConfig2`. -/
def createSkopeoConfig2 (w : World) (c : ConfigFile) : World × Option String :=
  createSkopeoConfig w (insecureRegistryTemplate2 c)

/-! ## readConfig -/

/-- The value of `configFile` in `readConfig`. -/
def configPath (w : World) : String :=
  match w.lookupEnv "CONFIG" with
  | some v => v
  | none => "./config.yml"

/-- The part of `readConfig` that sets the default transport: an empty
transport becomes `docker`. -/
def defaultTransports (g : Globals) : Globals :=
  let g := if g.srcConfig.Transport = "" then
      { g with srcConfig := { g.srcConfig with Transport := "docker" } } else g
  let g := if g.destConfig.Transport = "" then
      { g with destConfig := { g.destConfig with Transport := "docker" } } else g
  g

/-- The last part of `readConfig`: the three cases in which `registry.conf`
is created, and the return. -/
def declareInsecure (w : World) (g : Globals) : World × Globals × Option String :=
  if !g.srcConfig.Ssl && g.destConfig.Ssl then
    match createSkopeoConfig1 w g.srcConfig with
    | (w, some e) => (w, g, some ("error creating Skopeo registries config: " ++ e))
    | (w, none) => (w, g, none)
  else if g.srcConfig.Ssl && !g.destConfig.Ssl then
    match createSkopeoConfig1 w g.destConfig with
    | (w, some e) => (w, g, some ("error creating Skopeo registries config: " ++ e))
    | (w, none) => (w, g, none)
  else if !g.srcConfig.Ssl && !g.destConfig.Ssl then
    match createSkopeoConfig2 w ⟨g.srcConfig, g.destConfig⟩ with
    | (w, some e) => (w, g, some ("error creating Skopeo registries config: " ++ e))
    | (w, none) => (w, g, none)
  else
    (w, g, none)

/-- Go `readConfig`. -/
def readConfig (w : World) (g : Globals) : World × Globals × Option String :=
  let configFile := configPath w
  let w := w.emit (Event.readFile configFile)
  match lookupFile w.files configFile with
  | none =>
    (w, g, some ("Error reading file " ++ configFile ++ ": open " ++ configFile
      ++ ": no such file or directory"))
  | some data =>
    match w.yamlDecode data with
    | .error e =>
      (w, g, some ("error parsing config file \x27" ++ configFile ++ "\x27: " ++ e))
    | .ok doc =>
      let tmpc := decodeConfigFile doc ConfigFile.zero
      let g := { g with srcConfig := tmpc.Src, destConfig := tmpc.Dest }
      declareInsecure w (defaultTransports g)

/-! ## prepareSkopeoSyncCmd -/

/-- The value of the local variable `cred` of `prepareSkopeoSyncCmd` when it
is put into the command. -/
def credArgs (g : Globals) : String :=
  let cred := ""
  let cred :=
    if g.srcConfig.User ≠ "" then
      let cred := "--src-creds " ++ g.srcConfig.User
      if g.srcConfig.Pass ≠ "" then cred ++ ":" ++ g.srcConfig.Pass else cred
    else cred
  let cred :=
    if g.destConfig.User ≠ "" then
      let cred := cred ++ " --dest-creds " ++ g.destConfig.User
      if g.destConfig.Pass ≠ "" then cred ++ ":" ++ g.destConfig.Pass else cred
    else cred
  cred

/-- Go `prepareSkopeoSyncCmd`.  `os.Stat("registry.conf")` fails exactly when
there is no such file. -/
def prepareSkopeoSyncCmd (w : World) (g : Globals) : World × Globals × Option String :=
  let cmd := "skopeo sync"
  let insecure := !(g.srcConfig.Ssl && g.destConfig.Ssl)
  let w := if insecure then w.emit (Event.stat "registry.conf") else w
  if insecure && (lookupFile w.files "registry.conf").isNone then
    (w, g, some "File registry.conf not present")
  else
    let cmd := if insecure then cmd ++ " --registries-conf=registry.conf" else cmd
    let cmd := cmd ++ " " ++ credArgs g
    let cmd := if !g.srcConfig.Ssl then cmd ++ " --src-tls-verify=false" else cmd
    let cmd := if !g.destConfig.Ssl then cmd ++ " --dest-tls-verify=false" else cmd
    let cmd := cmd ++ " --src " ++ g.srcConfig.Transport ++ " --dest " ++ g.destConfig.Transport
    (w, { g with skopeoSyncCmd := cmd }, none)

/-! ## getRepoList -/

/-- The value of `proto` in `getRepoList`. -/
def catalogProto (regConfig : Config) : String :=
  if !regConfig.Ssl then "http" else "https"

/-- The value of `url` in `getRepoList`. -/
def catalogURL (regConfig : Config) : String :=
  let proto := catalogProto regConfig
  let url := proto ++ "://" ++ regConfig.Host ++ "/v2/_catalog"
  if regConfig.Api ≠ "" then proto ++ "://" ++ regConfig.Api ++ "/v2/_catalog" else url

/-- Go `getRepoList`.  A `nil` slice is the empty list. -/
def getRepoList (w : World) (regConfig : Config) : World × List String × Option String :=
  let proto := catalogProto regConfig
  let url := catalogURL regConfig
  match w.httpDo w.httpCalls url with
  | .requestError e =>
    ({ w with httpCalls := w.httpCalls + 1 }, [],
      some ("Error creating " ++ proto ++ " request: " ++ e))
  | .transportError e =>
    ({ w with httpCalls := w.httpCalls + 1 }.emit (Event.httpGet url), [],
      some ("Error executing " ++ proto ++ " request: " ++ e))
  | .response code status body =>
    let w := { w with httpCalls := w.httpCalls + 1 }.emit (Event.httpGet url)
    if code ≠ 200 then
      (w, [], some ("HTTP response status: " ++ status))
    else
      match body with
      | .error e => (w, [], some ("Error reading response body: " ++ e))
      | .ok b =>
        match w.jsonDecode b with
        | .error e => (w, [], some ("Error in json unmarshal: " ++ e))
        | .ok repositories => (w, repositories, none)

/-! ## syncRepo -/

/-- Go `execCmdSh`. -/
def execCmdSh (w : World) (cmdstr : String) : World × Option String :=
  let w1 := { w with runCalls := w.runCalls + 1 }.emit (Event.exec cmdstr)
  match w.run w.runCalls cmdstr with
  | .failed err stderr =>
    (w1, some ("Error while executing command:\n\x27" ++ cmdstr ++ "\x27\nError: " ++ err
      ++ "\n" ++ stderr))
  | .exited _ => (w1, none)

/-- The local variable `destRepo` of `syncRepo`. -/
def destRepo (repo : String) : String :=
  let split := Split repo '/'
  if split.length = 1 then repo
  else Join (split.take (split.length - 1)) "/"

/-- The local variable `cmd` of `syncRepo`. -/
def syncCmd (g : Globals) (repo : String) : String :=
  g.skopeoSyncCmd ++ " " ++ g.srcConfig.Host ++ "/" ++ repo ++ " " ++ g.destConfig.Host ++ "/"
    ++ destRepo repo

/-- Go `syncRepo`. -/
def syncRepo (w : World) (g : Globals) (repo : String) : World × Option String :=
  match execCmdSh w (syncCmd g repo) with
  | (w, some err) => (w, some err)
  | (w, none) => (w, none)

/-! ## main -/

/-- The `for _, r := range repos` loop of `main`: the error of `syncRepo` is
logged and the loop goes on. -/
def syncRepos (g : Globals) : List String → World → World
  | [], w => w
  | r :: rest, w => syncRepos g rest (syncRepo w g r).1

/-- The `for` loop of `main`, observed for a number of iterations.  The
result is the fatal message when `log.Fatalf` ended the process, and `none`
when the process is still looping after these iterations. -/
def pollLoop (g : Globals) (interval : Int) : Nat → World → World × Option String
  | 0, w => (w, none)
  | n + 1, w =>
    match getRepoList w g.srcConfig with
    | (w, _, some err) => (w, some ("ERROR: Unable to get source repo list " ++ err))
    | (w, repos, none) =>
      let w := syncRepos g repos w
      let w := w.emit (Event.sleep (sleepDuration interval))
      pollLoop g interval n w

/-- The value of `interv` in `main`. -/
def intervalText (w : World) : String :=
  match w.lookupEnv "INTERVAL" with
  | some v => v
  | none => "86400"

/-- Go `main`, with the loop observed for a number of iterations. -/
def main (iterations : Nat) (w : World) : World × Option String :=
  match readConfig w Globals.zero with
  | (w, _, some err) => (w, some ("ERROR: Unable to read Config " ++ err))
  | (w, g, none) =>
    match prepareSkopeoSyncCmd w g with
    | (w, _, some err) => (w, some ("ERROR: Unable to prepare skopeo sync command " ++ err))
    | (w, g, none) =>
      let interv := intervalText w
      match Atoi interv with
      | .error err =>
        (w, some ("ERROR: Unable to convert interval " ++ interv ++ " to int "
          ++ err.Error w.quote))
      | .ok interval => pollLoop g interval iterations w

/-! ## Vocabulary of the statements -/

/-- The pieces of a text between its blanks, without the empty ones. -/
def blankPieces (s : String) : List String :=
  ((splitChars ' ' s.data).filter (fun p => p ≠ [])).map String.mk

/-- Characters that mean nothing to the shell wherever they stand in a
word: letters, digits and `-_./:=@%+,`. -/
def isPlainChar (c : Char) : Bool :=
  c.isAlphanum || c ∈ ['-', '_', '.', '/', ':', '=', '@', '%', '+', ',']

/-- The characters at which the shell cuts a line into words: blank and tab. -/
def isBlank (c : Char) : Bool :=
  c = ' ' || c = '\t'

/-- Pieces of a character list between the characters of a kind. -/
def splitWith (p : Char → Bool) : List Char → List (List Char)
  | [] => [[]]
  | c :: cs =>
    if p c then [] :: splitWith p cs
    else match splitWith p cs with
      | [] => [[c]]
      | q :: qs => (c :: q) :: qs

/-- The maximal runs of characters other than blank and tab. -/
def blankFields (line : String) : List String :=
  ((splitWith isBlank line.data).filter (fun p => p ≠ [])).map String.mk

/-- Words that the shell reads as part of its own grammar when they stand
first in a command. -/
def reservedWords : List String :=
  ["if", "then", "else", "elif", "fi", "do", "done", "case", "esac", "while", "until", "for",
    "in", "function", "select", "time", "coproc"]

/-- The argument vector that `sh -c line` runs, command name first, for the
lines this development interprets: a line made of plain characters, blanks
and tabs only is cut at its blanks and tabs and nothing in it is expanded,
and its first word must be neither a reserved word nor an assignment.  Every
other line (quotes, `$`, `;`, `#`, newlines and so on) is left uninterpreted:
`none`. -/
def shellArgs (line : String) : Option (List String) :=
  if line.data.all (fun c => isPlainChar c || isBlank c) then
    match blankFields line with
    | [] => some []
    | name :: args =>
      if name ∈ reservedWords ∨ '=' ∈ name.data then none else some (name :: args)
  else none

/-- The text a credential flag carries: `user`, or `user:pass`. -/
def credValue (c : Config) : String :=
  if c.Pass = "" then c.User else c.User ++ ":" ++ c.Pass

/-- The words a credential flag contributes to the command line: none
without a user, else the flag and its value. -/
def credWords (flag : String) (c : Config) : List String :=
  if c.User = "" then [] else [flag, credValue c]

/-- The words the transport of an endpoint contributes: none when it is
empty, else the transport. -/
def transportWords (c : Config) : List String :=
  if c.Transport = "" then [] else [c.Transport]

/-- No field that goes into the command line has a blank, and neither the
user names nor the transports start with a dash. -/
def BlankFree (c : Config) : Prop :=
  ' ' ∉ c.User.data ∧ ' ' ∉ c.Pass.data ∧ ' ' ∉ c.Transport.data ∧
    c.User.data.head? ≠ some '-' ∧ c.Transport.data.head? ≠ some '-'

/-- The user, the password and the transport of an endpoint are made of plain
characters only, and neither the user nor the transport starts with a dash. -/
def PlainFields (c : Config) : Prop :=
  c.User.data.all isPlainChar = true ∧ c.Pass.data.all isPlainChar = true ∧
    c.Transport.data.all isPlainChar = true ∧
    c.User.data.head? ≠ some '-' ∧ c.Transport.data.head? ≠ some '-'

instance (c : Config) : Decidable (PlainFields c) := by
  unfold PlainFields; infer_instance

/-- A text made of plain characters and blanks only. -/
def SimpleLine (s : String) : Prop :=
  ∀ c ∈ s.data, isPlainChar c = true ∨ c = ' '

/-- Effects on files, as opposed to requests, commands and sleeps. -/
def Event.isFileAccess : Event → Bool
  | .readFile _ => true
  | .stat _ => true
  | .create _ => true
  | .write _ _ => true
  | _ => false

/-- The characters that `sampleQuote` escapes, each with the letter that
follows the backslash. -/
def escapedAs : List (Char × Char) :=
  [('\n', 'n'), ('\r', 'r'), ('\t', 't'), ('\"', '\"'), ('\\', '\\')]

/-- The `quote` of the example worlds: the text between double quotes, with
`"`, `\`, newline, return and tab escaped, which is what `strconv.Quote` does
to a text of printable ASCII characters and these. -/
def sampleQuote (s : String) : String :=
  String.mk ('\"' :: (s.data.flatMap (fun c =>
    match escapedAs.lookup c with
    | some letter => ['\\', letter]
    | none => [c]) ++ ['\"']))

/-- A world for examples: `config.yml` decodes to the given document, the
catalog answers with the given status and a body that decodes to the given
repositories, and the command of every repository whose index is in `failing`
exits with an error. -/
def sampleWorld (env : String → Option String) (doc : YamlDoc) (code : Nat) (status : String)
    (repos : List String) (failing : List Nat) : World :=
  { lookupEnv := env
    files := [("config.yml", "")]
    createError := none
    writeError := none
    yamlDecode := fun _ => .ok doc
    jsonDecode := fun _ => .ok repos
    quote := sampleQuote
    httpDo := fun _ _ => .response code status (.ok "")
    run := fun i _ => if i ∈ failing then .failed "exit status 1" "" else .exited ""
    httpCalls := 0
    runCalls := 0
    trace := [] }

/-- An environment without variables. -/
def noEnv : String → Option String :=
  fun _ => none

/-- An environment whose only variable is `INTERVAL`. -/
def intervalEnv (v : String) : String → Option String :=
  fun k => if k = "INTERVAL" then some v else none

/-- Globals as they are after a start with the hosts `reg1` and `reg2`, TLS on
both sides and no credentials. -/
def sampleGlobals : Globals :=
  { srcConfig := ⟨"reg1", "", "", "docker", true, ""⟩
    destConfig := ⟨"reg2", "", "", "docker", true, ""⟩
    skopeoSyncCmd := "skopeo sync  --src docker --dest docker" }

/-- A document whose `src` is `reg1` without an `ssl` key and whose `dest` is
`reg2` with `ssl: true`. -/
def docMissingSsl : YamlDoc :=
  ⟨some ⟨some "reg1", none, none, none, none, none⟩,
    some ⟨some "reg2", none, none, none, some true, none⟩⟩

/-- A world whose `config.yml` has a `src` mapping without an `ssl` key, and
whose decoder reads that text as `docMissingSsl`. -/
def missingSslWorld : World :=
  { sampleWorld noEnv docMissingSsl 200 "200 OK" [] [] with
    files := [("config.yml", "src:\n  host: reg1\ndest:\n  host: reg2\n  ssl: true\n")]
    yamlDecode := fun text =>
      if text = "src:\n  host: reg1\ndest:\n  host: reg2\n  ssl: true\n" then .ok docMissingSsl
      else .error "yaml: unexpected document" }

/-- A document with the given credentials and `ssl` values for the hosts
`reg1` and `reg2`. -/
def docWith (srcUser srcPass destUser destPass : Option String) (srcSsl destSsl : Bool) :
    YamlDoc :=
  ⟨some ⟨some "reg1", srcUser, srcPass, none, some srcSsl, none⟩,
    some ⟨some "reg2", destUser, destPass, none, some destSsl, none⟩⟩

/-- A document with the given transports and `ssl` values for the hosts
`reg1` and `reg2`, without credentials. -/
def docTransports (srcTransport destTransport : String) (srcSsl destSsl : Bool) : YamlDoc :=
  ⟨some ⟨some "reg1", none, none, some srcTransport, some srcSsl, none⟩,
    some ⟨some "reg2", none, none, some destTransport, some destSsl, none⟩⟩

/-- A world for examples with the given environment, TLS on both sides and
the catalog `img2`. -/
def startedWorld (env : String → Option String) : World :=
  sampleWorld env (docWith none none none none true true) 200 "200 OK" ["img2"] []

/-- The outcome of `readConfig` at the start of a process whose `config.yml`
decodes to the given document. -/
def afterReadConfig (doc : YamlDoc) : World × Globals × Option String :=
  readConfig (sampleWorld noEnv doc 200 "200 OK" [] []) Globals.zero

/-! ## Splitting and joining -/

theorem splitChars_ne_nil (sep : Char) (l : List Char) : splitChars sep l ≠ [] := by
  cases l with
  | nil => simp [splitChars]
  | cons c cs =>
    unfold splitChars
    split
    · simp
    · split <;> simp

theorem splitChars_of_not_mem (sep : Char) (l : List Char) (h : sep ∉ l) :
    splitChars sep l = [l] := by
  induction l with
  | nil => rfl
  | cons c cs ih =>
    have hc : c ≠ sep := fun e => h (by simp [e])
    have hcs : sep ∉ cs := fun e => h (by simp [e])
    unfold splitChars
    rw [if_neg hc, ih hcs]

theorem splitChars_of_mem (sep : Char) (l : List Char) (h : sep ∈ l) :
    ∃ init last, init ≠ [] ∧ splitChars sep l = init ++ [last] ∧ sep ∉ last ∧
      l = joinChars sep init ++ sep :: last := by
  induction l with
  | nil => simp at h
  | cons c cs ih =>
    by_cases hc : c = sep
    · by_cases hcs : sep ∈ cs
      · obtain ⟨init, last, hne, hsp, hlast, hj⟩ := ih hcs
        refine ⟨[] :: init, last, by simp, ?_, hlast, ?_⟩
        · unfold splitChars
          rw [if_pos hc, hsp]; rfl
        · cases init with
          | nil => exact absurd rfl hne
          | cons p ps =>
            simp only [joinChars, List.nil_append, List.cons_append]
            rw [hc, ← hj]
      · refine ⟨[[]], cs, by simp, ?_, hcs, ?_⟩
        · unfold splitChars
          rw [if_pos hc, splitChars_of_not_mem sep cs hcs]; rfl
        · simp [joinChars, hc]
    · have hcs : sep ∈ cs := by
        rcases List.mem_cons.mp h with e | e
        · exact absurd e.symm hc
        · exact e
      obtain ⟨init, last, hne, hsp, hlast, hj⟩ := ih hcs
      cases init with
      | nil => exact absurd rfl hne
      | cons p ps =>
        refine ⟨(c :: p) :: ps, last, by simp, ?_, hlast, ?_⟩
        · unfold splitChars
          rw [if_neg hc, hsp]; rfl
        · cases ps with
          | nil =>
            simp only [joinChars, List.cons_append] at hj ⊢
            rw [hj]
          | cons q qs =>
            simp only [joinChars, List.cons_append] at hj ⊢
            rw [hj]

theorem Join_map_mk (sep : Char) (ps : List (List Char)) :
    Join (ps.map String.mk) (String.mk [sep]) = String.mk (joinChars sep ps) := by
  induction ps with
  | nil => rfl
  | cons a rest ih =>
    cases rest with
    | nil => rfl
    | cons b rest2 =>
      simp only [List.map_cons, Join, joinChars] at ih ⊢
      rw [ih]
      apply String.ext
      simp

theorem destRepo_of_not_mem (repo : String) (h : '/' ∉ repo.data) : destRepo repo = repo := by
  simp [destRepo, Split, splitChars_of_not_mem _ _ h]

theorem destRepo_of_mem (repo : String) (h : '/' ∈ repo.data) :
    ∃ last : String, '/' ∉ last.data ∧ repo = destRepo repo ++ "/" ++ last := by
  obtain ⟨init, last, hne, hsp, hlast, hj⟩ := splitChars_of_mem _ _ h
  refine ⟨String.mk last, hlast, ?_⟩
  have hlen : (Split repo '/').length ≠ 1 := by
    cases init with
    | nil => exact absurd rfl hne
    | cons p ps => simp [Split, hsp]
  have htake : (Split repo '/').take ((Split repo '/').length - 1) = init.map String.mk := by
    simp [Split, hsp]
  have hd : destRepo repo = String.mk (joinChars '/' init) := by
    unfold destRepo
    simp only [hlen, if_false, htake]
    exact Join_map_mk '/' init
  rw [hd]
  apply String.ext
  simp [hj]

/-- C1: the command run by `syncRepo` ends in `destHost/destRepo`, where
`destRepo` is the part of the name before its last `/` when the name has a
`/`, and the name itself when it has none. -/
theorem syncRepo_destination_subpath (w : World) (g : Globals) (repo : String) :
    (syncRepo w g repo).1.trace =
        w.trace ++ [Event.exec (g.skopeoSyncCmd ++ " " ++ g.srcConfig.Host ++ "/" ++ repo ++ " "
          ++ g.destConfig.Host ++ "/" ++ destRepo repo)] ∧
      ('/' ∈ repo.data →
        ∃ last : String, '/' ∉ last.data ∧ repo = destRepo repo ++ "/" ++ last) ∧
      ('/' ∉ repo.data → destRepo repo = repo) := by
  refine ⟨?_, destRepo_of_mem repo, destRepo_of_not_mem repo⟩
  unfold syncRepo execCmdSh
  cases w.run w.runCalls (syncCmd g repo) <;> rfl

/-- C1 at the names `org/app/image` and `image`. -/
theorem syncRepo_destination_subpath_witness :
    destRepo "org/app/image" = "org/app" ∧ destRepo "image" = "image" ∧
      (∃ last : String, '/' ∉ last.data ∧
        "org/app/image" = destRepo "org/app/image" ++ "/" ++ last) :=
  ⟨by decide, (syncRepo_destination_subpath
      (sampleWorld noEnv docMissingSsl 200 "200 OK" [] []) Globals.zero "image").2.2 (by decide),
    (syncRepo_destination_subpath
      (sampleWorld noEnv docMissingSsl 200 "200 OK" [] []) Globals.zero "org/app/image").2.1
      (by decide)⟩

/-! ## readConfig -/

theorem createSkopeoConfig_ok (w w' : World) (text : String)
    (h : createSkopeoConfig w text = (w', none)) :
    w'.trace = w.trace ++ [Event.create "./registry.conf", Event.write "./registry.conf" text] ∧
      lookupFile w'.files "registry.conf" = some text := by
  unfold createSkopeoConfig at h
  cases hc : w.createError with
  | some e => simp [hc] at h
  | none =>
    cases hw : w.writeError with
    | some ne =>
      obtain ⟨n, e⟩ := ne
      simp [hc, hw, World.emit] at h
    | none =>
      simp only [hc, hw, World.emit, Prod.mk.injEq, and_true] at h
      subst h
      refine ⟨by simp, ?_⟩
      simp only [storeFile, lookupFile]
      rw [if_pos (by decide)]

theorem defaultTransports_fields (g : Globals) :
    (defaultTransports g).srcConfig.Ssl = g.srcConfig.Ssl ∧
      (defaultTransports g).destConfig.Ssl = g.destConfig.Ssl ∧
      (defaultTransports g).srcConfig.Host = g.srcConfig.Host ∧
      (defaultTransports g).destConfig.Host = g.destConfig.Host := by
  unfold defaultTransports
  by_cases h1 : g.srcConfig.Transport = "" <;> by_cases h2 : g.destConfig.Transport = "" <;>
    simp [h1, h2]

theorem declareInsecure_globals (w : World) (g : Globals) :
    (declareInsecure w g).2.1 = g := by
  unfold declareInsecure
  split_ifs <;> (try split) <;> rfl

/-- The globals `readConfig` leaves behind once the file was read and decoded
carry the decoded TLS flags, whatever happens later. -/
theorem readConfig_globals (w : World) (g : Globals) (data : String) (doc : YamlDoc)
    (hf : lookupFile w.files (configPath w) = some data) (hy : w.yamlDecode data = .ok doc) :
    (readConfig w g).2.1.srcConfig.Ssl = (decodeConfigFile doc ConfigFile.zero).Src.Ssl ∧
      (readConfig w g).2.1.destConfig.Ssl = (decodeConfigFile doc ConfigFile.zero).Dest.Ssl := by
  have hf2 : lookupFile (w.emit (Event.readFile (configPath w))).files (configPath w)
      = some data := hf
  have hy2 : (w.emit (Event.readFile (configPath w))).yamlDecode data = .ok doc := hy
  unfold readConfig
  simp only [hf2, hy2, declareInsecure_globals]
  exact ⟨(defaultTransports_fields _).1, (defaultTransports_fields _).2.1⟩

theorem declareInsecure_ok (w w' : World) (g g' : Globals)
    (h : declareInsecure w g = (w', g', none)) :
    g' = g ∧
    ((g.srcConfig.Ssl = true ∧ g.destConfig.Ssl = true ∧ w' = w) ∨
      (g.srcConfig.Ssl = false ∧ g.destConfig.Ssl = true ∧
        createSkopeoConfig w (insecureRegistryTemplate1 g.srcConfig) = (w', none)) ∨
      (g.srcConfig.Ssl = true ∧ g.destConfig.Ssl = false ∧
        createSkopeoConfig w (insecureRegistryTemplate1 g.destConfig) = (w', none)) ∨
      (g.srcConfig.Ssl = false ∧ g.destConfig.Ssl = false ∧
        createSkopeoConfig w (insecureRegistryTemplate2 ⟨g.srcConfig, g.destConfig⟩)
          = (w', none))) := by
  unfold declareInsecure at h
  simp only [createSkopeoConfig1, createSkopeoConfig2] at h
  cases hs : g.srcConfig.Ssl <;> cases hd : g.destConfig.Ssl <;>
    simp only [hs, hd, Bool.not_true, Bool.not_false, Bool.and_true, Bool.and_false,
      Bool.true_and, Bool.false_and, if_true, if_false, Bool.false_eq_true] at h
  · split at h
    · simp at h
    · rename_i w2 hw2
      simp only [Prod.mk.injEq, and_true] at h
      obtain ⟨h1, h2⟩ := h
      subst h1 h2
      exact ⟨rfl, Or.inr (Or.inr (Or.inr ⟨rfl, rfl, hw2⟩))⟩
  · split at h
    · simp at h
    · rename_i w2 hw2
      simp only [Prod.mk.injEq, and_true] at h
      obtain ⟨h1, h2⟩ := h
      subst h1 h2
      exact ⟨rfl, Or.inr (Or.inl ⟨rfl, rfl, hw2⟩)⟩
  · split at h
    · simp at h
    · rename_i w2 hw2
      simp only [Prod.mk.injEq, and_true] at h
      obtain ⟨h1, h2⟩ := h
      subst h1 h2
      exact ⟨rfl, Or.inr (Or.inr (Or.inl ⟨rfl, rfl, hw2⟩))⟩
  · simp only [Prod.mk.injEq, and_true] at h
    obtain ⟨h1, h2⟩ := h
    subst h1 h2
    exact ⟨rfl, Or.inl ⟨rfl, rfl, rfl⟩⟩

theorem readConfig_ok (w w' : World) (g g' : Globals)
    (h : readConfig w g = (w', g', none)) :
    declareInsecure (w.emit (Event.readFile (configPath w))) g' = (w', g', none) := by
  unfold readConfig at h
  simp only [] at h
  cases hf : lookupFile (w.emit (Event.readFile (configPath w))).files (configPath w) with
  | none => simp [hf] at h
  | some data =>
    cases hy : (w.emit (Event.readFile (configPath w))).yamlDecode data with
    | error e => simp [hf, hy] at h
    | ok doc =>
      simp only [hf, hy] at h
      have hg := declareInsecure_globals (w.emit (Event.readFile (configPath w)))
        (defaultTransports { g with
          srcConfig := (decodeConfigFile doc ConfigFile.zero).Src,
          destConfig := (decodeConfigFile doc ConfigFile.zero).Dest })
      rw [h] at hg
      simp only at hg
      rw [← hg] at h
      exact h

/-- C2 (defect of the code): when the `ssl` key of an endpoint is missing from
the configuration, `readConfig` resolves that endpoint with `Ssl = false`: the
zero value of the Go `bool` stays, TLS is disabled and not enabled. -/
theorem readConfig_missing_ssl_disables_tls (w : World) (g : Globals) (data : String)
    (doc : YamlDoc) (hf : lookupFile w.files (configPath w) = some data)
    (hy : w.yamlDecode data = .ok doc) :
    (doc.src.bind YamlEndpoint.ssl = none → (readConfig w g).2.1.srcConfig.Ssl = false) ∧
      (doc.dest.bind YamlEndpoint.ssl = none → (readConfig w g).2.1.destConfig.Ssl = false) := by
  obtain ⟨hs, hd⟩ := readConfig_globals w g data doc hf hy
  rw [hs, hd]
  constructor
  · intro h
    cases hsrc : doc.src with
    | none => simp [decodeConfigFile, hsrc, ConfigFile.zero, Config.zero]
    | some y =>
      rw [hsrc] at h
      have hy : y.ssl = none := h
      simp [decodeConfigFile, hsrc, decodeEndpoint, hy, ConfigFile.zero, Config.zero]
  · intro h
    cases hdst : doc.dest with
    | none => simp [decodeConfigFile, hdst, ConfigFile.zero, Config.zero]
    | some y =>
      rw [hdst] at h
      have hy : y.ssl = none := h
      simp [decodeConfigFile, hdst, decodeEndpoint, hy, ConfigFile.zero, Config.zero]

/-- C2 at a configuration whose `src` has only a host and whose `dest` says
`ssl: true`: the source is resolved without TLS, and the catalog is asked
over `http`. -/
theorem readConfig_missing_ssl_disables_tls_witness :
    (readConfig missingSslWorld Globals.zero).2.1.srcConfig.Ssl = false ∧
      catalogURL (readConfig missingSslWorld Globals.zero).2.1.srcConfig
        = "http://reg1/v2/_catalog" :=
  ⟨(readConfig_missing_ssl_disables_tls missingSslWorld Globals.zero
      "src:\n  host: reg1\ndest:\n  host: reg2\n  ssl: true\n" docMissingSsl
      (by decide) rfl).1 rfl, by decide⟩

/-! ## The declaration file -/

theorem createSkopeoConfig_error (w : World) (text : String) :
    (createSkopeoConfig w text).2 = none ↔ (w.createError = none ∧ w.writeError = none) := by
  unfold createSkopeoConfig
  cases hc : w.createError with
  | some e => simp
  | none =>
    cases hw : w.writeError with
    | some ne =>
      obtain ⟨n, e⟩ := ne
      simp [World.emit, hw]
    | none => simp [World.emit, hw]

theorem declareInsecure_error (w : World) (g : Globals) :
    (declareInsecure w g).2.2 = none ↔
      ((g.srcConfig.Ssl = true ∧ g.destConfig.Ssl = true) ∨
        (w.createError = none ∧ w.writeError = none)) := by
  have h1 := createSkopeoConfig_error w (insecureRegistryTemplate1 g.srcConfig)
  have h2 := createSkopeoConfig_error w (insecureRegistryTemplate1 g.destConfig)
  have h3 := createSkopeoConfig_error w (insecureRegistryTemplate2 ⟨g.srcConfig, g.destConfig⟩)
  unfold declareInsecure createSkopeoConfig1 createSkopeoConfig2
  cases hs : g.srcConfig.Ssl <;> cases hd : g.destConfig.Ssl <;>
    simp only [Bool.not_true, Bool.not_false, Bool.and_true, Bool.and_false,
      Bool.true_and, Bool.false_and, if_true, if_false, Bool.false_eq_true, false_and, and_false,
      false_or, and_self, true_or, iff_true]
  · rw [← h3]
    rcases createSkopeoConfig w (insecureRegistryTemplate2 ⟨g.srcConfig, g.destConfig⟩)
      with ⟨w2, e2⟩
    cases e2 <;> simp
  · rw [← h1]
    rcases createSkopeoConfig w (insecureRegistryTemplate1 g.srcConfig) with ⟨w2, e2⟩
    cases e2 <;> simp
  · rw [← h2]
    rcases createSkopeoConfig w (insecureRegistryTemplate1 g.destConfig) with ⟨w2, e2⟩
    cases e2 <;> simp

theorem readConfig_decoded (w : World) (g : Globals) (data : String) (doc : YamlDoc)
    (hf : lookupFile w.files (configPath w) = some data) (hy : w.yamlDecode data = .ok doc) :
    readConfig w g = declareInsecure (w.emit (Event.readFile (configPath w)))
      (defaultTransports { g with
        srcConfig := (decodeConfigFile doc ConfigFile.zero).Src,
        destConfig := (decodeConfigFile doc ConfigFile.zero).Dest }) := by
  have hf2 : lookupFile (w.emit (Event.readFile (configPath w))).files (configPath w)
      = some data := hf
  have hy2 : (w.emit (Event.readFile (configPath w))).yamlDecode data = .ok doc := hy
  unfold readConfig
  simp only [hf2, hy2]

/-- C3: once the configuration is read and decoded, `readConfig` resolves the
TLS flags and hosts of the document; it succeeds exactly when both endpoints
have TLS enabled or `./registry.conf` can be created and written; and when it
succeeds the file is written exactly when an endpoint has TLS disabled: with
one such endpoint the content lists that host, with two it lists the source
host and then the destination host, with none nothing is created or
written. -/
theorem readConfig_declaration_file (w w' : World) (g g' : Globals) (e : Option String)
    (data : String) (doc : YamlDoc)
    (hf : lookupFile w.files (configPath w) = some data) (hy : w.yamlDecode data = .ok doc)
    (h : readConfig w g = (w', g', e)) :
    (g'.srcConfig.Ssl = (decodeConfigFile doc ConfigFile.zero).Src.Ssl ∧
      g'.destConfig.Ssl = (decodeConfigFile doc ConfigFile.zero).Dest.Ssl ∧
      g'.srcConfig.Host = (decodeConfigFile doc ConfigFile.zero).Src.Host ∧
      g'.destConfig.Host = (decodeConfigFile doc ConfigFile.zero).Dest.Host) ∧
    (e = none ↔ ((g'.srcConfig.Ssl = true ∧ g'.destConfig.Ssl = true) ∨
      (w.createError = none ∧ w.writeError = none))) ∧
    (e = none →
      ∃ evs : List Event, w'.trace = w.trace ++ Event.readFile (configPath w) :: evs ∧
        ((∃ c, Event.write "./registry.conf" c ∈ evs) ↔
          (g'.srcConfig.Ssl = false ∨ g'.destConfig.Ssl = false)) ∧
        (g'.srcConfig.Ssl = true → g'.destConfig.Ssl = true →
          evs = [] ∧ w'.files = w.files) ∧
        (g'.srcConfig.Ssl = false → g'.destConfig.Ssl = true →
          evs = [Event.create "./registry.conf", Event.write "./registry.conf"
              ("[registries.insecure]\nregistries = [\x27" ++ g'.srcConfig.Host ++ "\x27]\n")] ∧
            lookupFile w'.files "registry.conf" =
              some ("[registries.insecure]\nregistries = [\x27" ++ g'.srcConfig.Host
                ++ "\x27]\n")) ∧
        (g'.srcConfig.Ssl = true → g'.destConfig.Ssl = false →
          evs = [Event.create "./registry.conf", Event.write "./registry.conf"
              ("[registries.insecure]\nregistries = [\x27" ++ g'.destConfig.Host ++ "\x27]\n")] ∧
            lookupFile w'.files "registry.conf" =
              some ("[registries.insecure]\nregistries = [\x27" ++ g'.destConfig.Host
                ++ "\x27]\n")) ∧
        (g'.srcConfig.Ssl = false → g'.destConfig.Ssl = false →
          evs = [Event.create "./registry.conf", Event.write "./registry.conf"
              ("[registries.insecure]\nregistries = [\x27" ++ g'.srcConfig.Host ++ "\x27, \x27"
                ++ g'.destConfig.Host ++ "\x27]\n")] ∧
            lookupFile w'.files "registry.conf" =
              some ("[registries.insecure]\nregistries = [\x27" ++ g'.srcConfig.Host
                ++ "\x27, \x27" ++ g'.destConfig.Host ++ "\x27]\n"))) := by
  have hdec := readConfig_decoded w g data doc hf hy
  have hg : g' = defaultTransports { g with
      srcConfig := (decodeConfigFile doc ConfigFile.zero).Src,
      destConfig := (decodeConfigFile doc ConfigFile.zero).Dest } := by
    have := declareInsecure_globals (w.emit (Event.readFile (configPath w)))
      (defaultTransports { g with
        srcConfig := (decodeConfigFile doc ConfigFile.zero).Src,
        destConfig := (decodeConfigFile doc ConfigFile.zero).Dest })
    rw [← hdec, h] at this
    exact this
  have herr := declareInsecure_error (w.emit (Event.readFile (configPath w)))
    (defaultTransports { g with
      srcConfig := (decodeConfigFile doc ConfigFile.zero).Src,
      destConfig := (decodeConfigFile doc ConfigFile.zero).Dest })
  rw [← hdec, h, ← hg] at herr
  refine ⟨?_, herr, ?_⟩
  · rw [hg]
    exact defaultTransports_fields _
  intro he
  subst he
  obtain ⟨-, hcases⟩ := declareInsecure_ok _ _ _ _ (readConfig_ok w w' g g' h)
  rcases hcases with ⟨hs, hd, hw⟩ | ⟨hs, hd, hw⟩ | ⟨hs, hd, hw⟩ | ⟨hs, hd, hw⟩
  · subst hw
    exact ⟨[], by simp [World.emit], by simp [hs, hd], fun _ _ => ⟨rfl, rfl⟩,
      by simp [hs], by simp [hd], by simp [hs]⟩
  · obtain ⟨ht, hl⟩ := createSkopeoConfig_ok _ _ _ hw
    refine ⟨[Event.create "./registry.conf", Event.write "./registry.conf"
        (insecureRegistryTemplate1 g'.srcConfig)], by rw [ht]; simp [World.emit], ?_,
      by simp [hs], ?_, by simp [hs], by simp [hd]⟩
    · simp [hs]
    · intro _ _
      exact ⟨rfl, hl⟩
  · obtain ⟨ht, hl⟩ := createSkopeoConfig_ok _ _ _ hw
    refine ⟨[Event.create "./registry.conf", Event.write "./registry.conf"
        (insecureRegistryTemplate1 g'.destConfig)], by rw [ht]; simp [World.emit], ?_,
      by simp [hd], by simp [hs], ?_, by simp [hs]⟩
    · simp [hd]
    · intro _ _
      exact ⟨rfl, hl⟩
  · obtain ⟨ht, hl⟩ := createSkopeoConfig_ok _ _ _ hw
    refine ⟨[Event.create "./registry.conf", Event.write "./registry.conf"
        (insecureRegistryTemplate2 ⟨g'.srcConfig, g'.destConfig⟩)],
      by rw [ht]; simp [World.emit], ?_, by simp [hs], by simp [hd], by simp [hs], ?_⟩
    · simp [hs]
    · intro _ _
      exact ⟨rfl, hl⟩

/-- C3 at the four configurations of the hosts `reg1` and `reg2`: source
without TLS, destination without TLS, both without, both with. -/
theorem readConfig_declaration_file_witness :
    (lookupFile (afterReadConfig (docWith none none none none false true)).1.files
        "registry.conf"
      = some "[registries.insecure]\nregistries = [\x27reg1\x27]\n") ∧
    (lookupFile (afterReadConfig (docWith none none none none true false)).1.files
        "registry.conf"
      = some "[registries.insecure]\nregistries = [\x27reg2\x27]\n") ∧
    (lookupFile (afterReadConfig (docWith none none none none false false)).1.files
        "registry.conf"
      = some "[registries.insecure]\nregistries = [\x27reg1\x27, \x27reg2\x27]\n") ∧
    ((afterReadConfig (docWith none none none none true true)).1.files
      = [("config.yml", "")]) ∧
    (afterReadConfig (docWith none none none none false false)).2.2 = none := by
  have key := fun (doc : YamlDoc) => readConfig_declaration_file
    (sampleWorld noEnv doc 200 "200 OK" [] []) (afterReadConfig doc).1 Globals.zero
    (afterReadConfig doc).2.1 (afterReadConfig doc).2.2 "" doc rfl rfl rfl
  refine ⟨?_, ?_, ?_, ?_, ?_⟩
  · obtain ⟨evs, -, -, -, h, -⟩ := (key (docWith none none none none false true)).2.2 rfl
    exact (h rfl rfl).2
  · obtain ⟨evs, -, -, -, -, h, -⟩ := (key (docWith none none none none true false)).2.2 rfl
    exact (h rfl rfl).2
  · obtain ⟨evs, -, -, -, -, -, h⟩ := (key (docWith none none none none false false)).2.2 rfl
    exact (h rfl rfl).2
  · obtain ⟨evs, -, -, h, -⟩ := (key (docWith none none none none true true)).2.2 rfl
    exact (h rfl rfl).2
  · exact (key (docWith none none none none false false)).2.1.mpr (Or.inr ⟨rfl, rfl⟩)

/-! ## The poll loop -/

theorem syncRepo_world (w : World) (g : Globals) (repo : String) :
    (syncRepo w g repo).1 =
      { w with runCalls := w.runCalls + 1 }.emit (Event.exec (syncCmd g repo)) := by
  unfold syncRepo execCmdSh
  cases w.run w.runCalls (syncCmd g repo) <;> rfl

theorem syncRepos_trace (g : Globals) (repos : List String) (w : World) :
    (syncRepos g repos w).trace = w.trace ++ repos.map (fun r => Event.exec (syncCmd g r)) ∧
      (syncRepos g repos w).runCalls = w.runCalls + repos.length ∧
      (syncRepos g repos w).httpCalls = w.httpCalls := by
  induction repos generalizing w with
  | nil => simp [syncRepos]
  | cons r rest ih =>
    obtain ⟨h1, h2, h3⟩ := ih (syncRepo w g r).1
    simp only [syncRepos]
    rw [h1, h2, h3, syncRepo_world]
    simp only [World.emit, List.map_cons, List.length_cons]
    refine ⟨by simp, by omega, trivial⟩

theorem getRepoList_runCalls (w : World) (c : Config) :
    (getRepoList w c).1.runCalls = w.runCalls := by
  unfold getRepoList
  simp only []
  cases w.httpDo w.httpCalls (catalogURL c) with
  | requestError e => rfl
  | transportError e => rfl
  | response code status body =>
    simp only []
    split_ifs
    · rfl
    · cases body with
      | error e => rfl
      | ok b =>
        simp only []
        split <;> rfl

/-- C4: one poll cycle runs the command once per repository of the catalog, in
the order of the catalog, each time as the shared command followed by
`srcHost/repo` and `destHost/destRepo`, whatever the outcome of each run; for
`a/b/img1` and `img2` these are two runs with the sub-paths `a/b` and `img2`. -/
theorem pollCycle_runs_once_per_repo (w w1 : World) (g : Globals) (interval : Int)
    (repos : List String) (h : getRepoList w g.srcConfig = (w1, repos, none)) :
    (pollLoop g interval 1 w).1.trace =
        w1.trace ++ repos.map (fun r => Event.exec (g.skopeoSyncCmd ++ " " ++ g.srcConfig.Host
          ++ "/" ++ r ++ " " ++ g.destConfig.Host ++ "/" ++ destRepo r))
          ++ [Event.sleep (sleepDuration interval)] ∧
      (pollLoop g interval 1 w).1.runCalls = w.runCalls + repos.length ∧
      (pollLoop g interval 1 w).2 = none ∧
      (repos = ["a/b/img1", "img2"] →
        (pollLoop g interval 1 w).1.trace =
          w1.trace ++ [Event.exec (g.skopeoSyncCmd ++ " " ++ g.srcConfig.Host ++ "/a/b/img1 "
              ++ g.destConfig.Host ++ "/a/b"),
            Event.exec (g.skopeoSyncCmd ++ " " ++ g.srcConfig.Host ++ "/img2 "
              ++ g.destConfig.Host ++ "/img2"),
            Event.sleep (sleepDuration interval)]) := by
  have hcalls : w1.runCalls = w.runCalls := by
    have := getRepoList_runCalls w g.srcConfig
    rw [h] at this
    exact this
  obtain ⟨ht, hr, -⟩ := syncRepos_trace g repos w1
  have hloop : pollLoop g interval 1 w =
      ((syncRepos g repos w1).emit (Event.sleep (sleepDuration interval)), none) := by
    simp only [pollLoop, h]
  have hmain : (pollLoop g interval 1 w).1.trace =
      w1.trace ++ repos.map (fun r => Event.exec (g.skopeoSyncCmd ++ " " ++ g.srcConfig.Host
          ++ "/" ++ r ++ " " ++ g.destConfig.Host ++ "/" ++ destRepo r))
          ++ [Event.sleep (sleepDuration interval)] := by
    rw [hloop]
    simp only [World.emit, ht]
    rfl
  refine ⟨hmain, ?_, ?_, ?_⟩
  · rw [hloop]
    simp only [World.emit, hr, hcalls]
  · rw [hloop]
  · intro hrep
    rw [hmain, hrep]
    have e1 : destRepo "a/b/img1" = "a/b" := by decide
    have e2 : destRepo "img2" = "img2" := by decide
    simp only [List.map_cons, List.map_nil, e1, e2, List.append_assoc, List.cons_append,
      List.nil_append, String.append_assoc]
    rfl

/-- C4 at the catalog `a/b/img1`, `img2` where the first command fails: both
commands are run, with the sub-paths `a/b` and `img2`. -/
theorem pollCycle_runs_once_per_repo_witness :
    (syncRepo (getRepoList (sampleWorld noEnv docMissingSsl 200 "200 OK" ["a/b/img1", "img2"] [0])
        sampleGlobals.srcConfig).1 sampleGlobals "a/b/img1").2 ≠ none ∧
      (pollLoop sampleGlobals 5 1
        (sampleWorld noEnv docMissingSsl 200 "200 OK" ["a/b/img1", "img2"] [0])).1.trace =
      [Event.httpGet "https://reg1/v2/_catalog",
        Event.exec "skopeo sync  --src docker --dest docker reg1/a/b/img1 reg2/a/b",
        Event.exec "skopeo sync  --src docker --dest docker reg1/img2 reg2/img2",
        Event.sleep 5000000000] :=
  ⟨by decide,
    (pollCycle_runs_once_per_repo
      (sampleWorld noEnv docMissingSsl 200 "200 OK" ["a/b/img1", "img2"] [0])
      (getRepoList (sampleWorld noEnv docMissingSsl 200 "200 OK" ["a/b/img1", "img2"] [0])
        sampleGlobals.srcConfig).1 sampleGlobals 5 ["a/b/img1", "img2"] rfl).2.2.2 rfl⟩

/-! ## Startup and the interval -/

theorem createSkopeoConfig_trace (w : World) (text : String) :
    (createSkopeoConfig w text).1.lookupEnv = w.lookupEnv ∧
      ∃ evs, (createSkopeoConfig w text).1.trace = w.trace ++ evs ∧
        ∀ e ∈ evs, e.isFileAccess = true := by
  unfold createSkopeoConfig
  cases hc : w.createError with
  | some e => exact ⟨rfl, [], by simp, by simp⟩
  | none =>
    cases hw : w.writeError with
    | some ne =>
      obtain ⟨n, e⟩ := ne
      simp only [World.emit, hw]
      exact ⟨trivial, [Event.create "./registry.conf",
        Event.write "./registry.conf" (String.mk (text.data.take n))], by simp,
        by simp [Event.isFileAccess]⟩
    | none =>
      simp only [World.emit, hw]
      exact ⟨trivial, [Event.create "./registry.conf", Event.write "./registry.conf" text],
        by simp, by simp [Event.isFileAccess]⟩

theorem declareInsecure_world (w : World) (g : Globals) :
    (declareInsecure w g).1 = w ∨
      (∃ text, (declareInsecure w g).1 = (createSkopeoConfig w text).1) := by
  unfold declareInsecure createSkopeoConfig1 createSkopeoConfig2
  split_ifs
  · right
    refine ⟨insecureRegistryTemplate1 g.srcConfig, ?_⟩
    split <;> rename_i h <;> rw [h]
  · right
    refine ⟨insecureRegistryTemplate1 g.destConfig, ?_⟩
    split <;> rename_i h <;> rw [h]
  · right
    refine ⟨insecureRegistryTemplate2 ⟨g.srcConfig, g.destConfig⟩, ?_⟩
    split <;> rename_i h <;> rw [h]
  · left; rfl

theorem declareInsecure_trace (w : World) (g : Globals) :
    (declareInsecure w g).1.lookupEnv = w.lookupEnv ∧
      ∃ evs, (declareInsecure w g).1.trace = w.trace ++ evs ∧
        ∀ e ∈ evs, e.isFileAccess = true := by
  rcases declareInsecure_world w g with h | ⟨text, h⟩
  · rw [h]
    exact ⟨rfl, [], by simp, by simp⟩
  · rw [h]
    exact createSkopeoConfig_trace w text

theorem readConfig_world (w : World) (g : Globals) :
    (readConfig w g).1 = w.emit (Event.readFile (configPath w)) ∨
      ∃ g1, (readConfig w g).1 =
        (declareInsecure (w.emit (Event.readFile (configPath w))) g1).1 := by
  unfold readConfig
  simp only []
  cases hf : lookupFile (w.emit (Event.readFile (configPath w))).files (configPath w) with
  | none => left; rfl
  | some data =>
    simp only []
    cases hy : (w.emit (Event.readFile (configPath w))).yamlDecode data with
    | error e => left; rfl
    | ok doc => right; exact ⟨_, rfl⟩

theorem readConfig_trace (w : World) (g : Globals) :
    (readConfig w g).1.lookupEnv = w.lookupEnv ∧
      ∃ evs, (readConfig w g).1.trace = w.trace ++ evs ∧
        ∀ e ∈ evs, e.isFileAccess = true := by
  rcases readConfig_world w g with h | ⟨g1, h⟩
  · rw [h]
    exact ⟨rfl, [Event.readFile (configPath w)], rfl, by simp [Event.isFileAccess]⟩
  · rw [h]
    obtain ⟨he, evs, ht, hall⟩ :=
      declareInsecure_trace (w.emit (Event.readFile (configPath w))) g1
    refine ⟨he, Event.readFile (configPath w) :: evs, ?_, ?_⟩
    · rw [ht]; simp [World.emit]
    · intro e hmem
      rcases List.mem_cons.mp hmem with h | h
      · rw [h]; rfl
      · exact hall e h

theorem prepareSkopeoSyncCmd_world (w : World) (g : Globals) :
    (prepareSkopeoSyncCmd w g).1 =
      if (!(g.srcConfig.Ssl && g.destConfig.Ssl)) = true then w.emit (Event.stat "registry.conf")
      else w := by
  unfold prepareSkopeoSyncCmd
  simp only [apply_ite Prod.fst, ite_self]

theorem prepareSkopeoSyncCmd_trace (w : World) (g : Globals) :
    (prepareSkopeoSyncCmd w g).1.lookupEnv = w.lookupEnv ∧
      ∃ evs, (prepareSkopeoSyncCmd w g).1.trace = w.trace ++ evs ∧
        ∀ e ∈ evs, e.isFileAccess = true := by
  rw [prepareSkopeoSyncCmd_world]
  split_ifs
  · exact ⟨rfl, [Event.stat "registry.conf"], rfl, by simp [Event.isFileAccess]⟩
  · exact ⟨rfl, [], by simp, by simp⟩

theorem getRepoList_trace (w : World) (c : Config) :
    ∃ evs, (getRepoList w c).1.trace = w.trace ++ evs ∧
      ∀ e ∈ evs, ∃ u, e = Event.httpGet u := by
  unfold getRepoList
  simp only []
  cases w.httpDo w.httpCalls (catalogURL c) with
  | requestError e => exact ⟨[], by simp, by simp⟩
  | transportError e => exact ⟨[Event.httpGet (catalogURL c)], rfl, by simp⟩
  | response code status body =>
    simp only []
    split_ifs
    · exact ⟨[Event.httpGet (catalogURL c)], rfl, by simp⟩
    · cases body with
      | error e => exact ⟨[Event.httpGet (catalogURL c)], rfl, by simp⟩
      | ok b =>
        simp only []
        split <;> exact ⟨[Event.httpGet (catalogURL c)], rfl, by simp⟩

theorem pollLoop_trace (g : Globals) (interval : Int) (n : Nat) (w : World) :
    ∃ evs, (pollLoop g interval n w).1.trace = w.trace ++ evs ∧
      (∀ e ∈ evs, e.isFileAccess = false) ∧
      ∀ d, Event.sleep d ∈ evs → d = sleepDuration interval := by
  induction n generalizing w with
  | zero => exact ⟨[], by simp [pollLoop], by simp, by simp⟩
  | succ n ih =>
    obtain ⟨evs1, ht1, hall1⟩ := getRepoList_trace w g.srcConfig
    unfold pollLoop
    rcases hg : getRepoList w g.srcConfig with ⟨w1, repos, err⟩
    rw [hg] at ht1
    cases err with
    | some e =>
      refine ⟨evs1, ht1, ?_, ?_⟩
      · intro e he
        obtain ⟨u, hu⟩ := hall1 e he
        rw [hu]; rfl
      · intro d hd
        obtain ⟨u, hu⟩ := hall1 _ hd
        cases hu
    | none =>
      simp only []
      obtain ⟨evs2, ht2, hfile2, hsleep2⟩ :=
        ih ((syncRepos g repos w1).emit (Event.sleep (sleepDuration interval)))
      refine ⟨evs1 ++ repos.map (fun r => Event.exec (syncCmd g r))
        ++ [Event.sleep (sleepDuration interval)] ++ evs2, ?_, ?_, ?_⟩
      · rw [ht2]
        simp only [World.emit, (syncRepos_trace g repos w1).1]
        simp only [] at ht1
        rw [ht1]
        simp
      · intro e he
        simp only [List.mem_append, List.mem_map, List.mem_singleton] at he
        rcases he with ((he | ⟨r, -, hr⟩) | he) | he
        · obtain ⟨u, hu⟩ := hall1 e he
          rw [hu]; rfl
        · rw [← hr]; rfl
        · rw [he]; rfl
        · exact hfile2 e he
      · intro d hd
        simp only [List.mem_append, List.mem_map, List.mem_singleton] at hd
        rcases hd with ((hd | ⟨r, -, hr⟩) | hd) | hd
        · obtain ⟨u, hu⟩ := hall1 _ hd
          cases hu
        · cases hr
        · cases hd; rfl
        · exact hsleep2 d hd

theorem intervalText_congr (w w2 : World) (h : w2.lookupEnv = w.lookupEnv) :
    intervalText w2 = intervalText w := by
  unfold intervalText
  rw [h]

theorem main_startup (n : Nat) (w : World) :
    ∃ w2 evs, w2.trace = w.trace ++ evs ∧ (∀ e ∈ evs, e.isFileAccess = true) ∧
      ((∃ msg, main n w = (w2, some msg)) ∨
        (∃ g interval, Atoi (intervalText w) = .ok interval ∧
          main n w = pollLoop g interval n w2)) := by
  obtain ⟨he1, evs1, ht1, hall1⟩ := readConfig_trace w Globals.zero
  unfold main
  rcases hr : readConfig w Globals.zero with ⟨w1, g1, e1⟩
  rw [hr] at he1 ht1
  simp only [] at he1 ht1
  cases e1 with
  | some err => exact ⟨w1, evs1, ht1, hall1, Or.inl ⟨_, rfl⟩⟩
  | none =>
    simp only []
    obtain ⟨he2, evs2, ht2, hall2⟩ := prepareSkopeoSyncCmd_trace w1 g1
    rcases hp : prepareSkopeoSyncCmd w1 g1 with ⟨w2, g2, e2⟩
    rw [hp] at he2 ht2
    simp only [] at he2 ht2
    have ht : w2.trace = w.trace ++ (evs1 ++ evs2) := by
      rw [ht2, ht1, List.append_assoc]
    have hall : ∀ e ∈ evs1 ++ evs2, e.isFileAccess = true := by
      intro e he
      rcases List.mem_append.mp he with h | h
      · exact hall1 e h
      · exact hall2 e h
    have hi : intervalText w2 = intervalText w :=
      intervalText_congr w w2 (he2.trans he1)
    cases e2 with
    | some err => exact ⟨w2, _, ht, hall, Or.inl ⟨_, rfl⟩⟩
    | none =>
      simp only [hi]
      cases ha : Atoi (intervalText w) with
      | error err => exact ⟨w2, _, ht, hall, Or.inl ⟨_, rfl⟩⟩
      | ok interval => exact ⟨w2, _, ht, hall, Or.inr ⟨g2, interval, rfl, rfl⟩⟩

theorem main_sleeps (n : Nat) (w : World) (interval : Int)
    (ha : Atoi (intervalText w) = .ok interval) :
    ∃ evs, (main n w).1.trace = w.trace ++ evs ∧
      (∀ d, Event.sleep d ∈ evs → d = sleepDuration interval) ∧
      ((∃ g w2, main n w = pollLoop g interval n w2) ∨
        ((∃ msg, (main n w).2 = some msg) ∧ ∀ e ∈ evs, e.isFileAccess = true)) := by
  obtain ⟨w2, evs, ht, hall, hm⟩ := main_startup n w
  rcases hm with ⟨msg, hm⟩ | ⟨g, i, hi, hm⟩
  · refine ⟨evs, by rw [hm]; exact ht, ?_, Or.inr ⟨⟨msg, by rw [hm]⟩, hall⟩⟩
    intro d hd
    have := hall _ hd
    simp [Event.isFileAccess] at this
  · rw [ha] at hi
    cases hi
    obtain ⟨evs2, ht2, -, hs2⟩ := pollLoop_trace g interval n w2
    refine ⟨evs ++ evs2, by rw [hm, ht2, ht, List.append_assoc], ?_, Or.inl ⟨g, w2, hm⟩⟩
    intro d hd
    rcases List.mem_append.mp hd with h | h
    · have := hall _ h
      simp [Event.isFileAccess] at this
    · exact hs2 d h

theorem main_bad_interval (n : Nat) (w : World) (err : NumError)
    (ha : Atoi (intervalText w) = .error err) :
    ∃ evs, (main n w).1.trace = w.trace ++ evs ∧
      (∃ msg, (main n w).2 = some msg) ∧ ∀ e ∈ evs, e.isFileAccess = true := by
  obtain ⟨w2, evs, ht, hall, hm⟩ := main_startup n w
  rcases hm with ⟨msg, hm⟩ | ⟨g, i, hi, hm⟩
  · exact ⟨evs, by rw [hm]; exact ht, ⟨msg, by rw [hm]⟩, hall⟩
  · rw [ha] at hi
    cases hi

theorem createSkopeoConfig_quote (w : World) (text : String) :
    (createSkopeoConfig w text).1.quote = w.quote := by
  unfold createSkopeoConfig
  cases hc : w.createError with
  | some e => rfl
  | none =>
    cases hw : w.writeError with
    | some ne =>
      obtain ⟨n, e⟩ := ne
      simp only [World.emit, hw]
    | none => simp only [World.emit, hw]

theorem readConfig_quote (w : World) (g : Globals) : (readConfig w g).1.quote = w.quote := by
  rcases readConfig_world w g with h | ⟨g0, h⟩
  · rw [h]; rfl
  · rw [h]
    rcases declareInsecure_world (w.emit (Event.readFile (configPath w))) g0
      with h' | ⟨text, h'⟩
    · rw [h']; rfl
    · rw [h', createSkopeoConfig_quote]; rfl

theorem prepareSkopeoSyncCmd_quote (w : World) (g : Globals) :
    (prepareSkopeoSyncCmd w g).1.quote = w.quote := by
  rw [prepareSkopeoSyncCmd_world]
  split_ifs <;> rfl

theorem main_started (n : Nat) (w w1 w2 : World) (g1 g2 : Globals)
    (h1 : readConfig w Globals.zero = (w1, g1, none))
    (h2 : prepareSkopeoSyncCmd w1 g1 = (w2, g2, none)) :
    main n w =
      match Atoi (intervalText w) with
      | .error err =>
        (w2, some ("ERROR: Unable to convert interval " ++ intervalText w ++ " to int "
          ++ err.Error w.quote))
      | .ok interval => pollLoop g2 interval n w2 := by
  have he1 := (readConfig_trace w Globals.zero).1
  have he2 := (prepareSkopeoSyncCmd_trace w1 g1).1
  rw [h1] at he1
  rw [h2] at he2
  have hi : intervalText w2 = intervalText w := intervalText_congr w w2 (he2.trans he1)
  have hq : w2.quote = w.quote := by
    have q1 := readConfig_quote w Globals.zero
    have q2 := prepareSkopeoSyncCmd_quote w1 g1
    rw [h1] at q1
    rw [h2] at q2
    exact q2.trans q1
  unfold main
  simp only [h1, h2, hi, hq]

theorem pollLoop_first_sleep (g : Globals) (interval : Int) (n : Nat) (w w3 : World)
    (repos : List String) (h : getRepoList w g.srcConfig = (w3, repos, none))
    (evs : List Event) (ht : (pollLoop g interval (n + 1) w).1.trace = w.trace ++ evs) :
    Event.sleep (sleepDuration interval) ∈ evs := by
  obtain ⟨evs1, ht1, -⟩ := getRepoList_trace w g.srcConfig
  rw [h] at ht1
  simp only [] at ht1
  obtain ⟨evs2, ht2, -, -⟩ :=
    pollLoop_trace g interval n ((syncRepos g repos w3).emit (Event.sleep (sleepDuration interval)))
  have hl : pollLoop g interval (n + 1) w =
      pollLoop g interval n
        ((syncRepos g repos w3).emit (Event.sleep (sleepDuration interval))) := by
    simp only [pollLoop, h]
  rw [hl, ht2] at ht
  simp only [World.emit, (syncRepos_trace g repos w3).1, ht1, List.append_assoc] at ht
  have := List.append_cancel_left ht
  rw [← this]
  simp

/-- C5: every run of `main` whose `INTERVAL` is a text that `Atoi` rejects, as
it rejects `abc`, ends with a fatal message and has made no request, run no
command and not slept.  When `readConfig` and `prepareSkopeoSyncCmd` have
succeeded, `main` goes on as the loop with interval 86400 when `INTERVAL` is
unset and with interval 5 when it is `5`, and a first iteration whose catalog
query succeeds sleeps 86400 and 5 seconds; in both cases no sleep of the run
has another length. -/
theorem main_interval_resolution (n : Nat) (w : World) :
    ∃ evs, (main n w).1.trace = w.trace ++ evs ∧
      (∀ v err, w.lookupEnv "INTERVAL" = some v → Atoi v = .error err →
        (∃ msg, (main n w).2 = some msg) ∧
        ∀ e ∈ evs, (∀ u, e ≠ Event.httpGet u) ∧ (∀ c, e ≠ Event.exec c) ∧
          ∀ d, e ≠ Event.sleep d) ∧
      Atoi "abc" = .error ⟨"Atoi", "abc", .ErrSyntax⟩ ∧
      (w.lookupEnv "INTERVAL" = none → ∀ d, Event.sleep d ∈ evs → d = 86400 * 1000000000) ∧
      (w.lookupEnv "INTERVAL" = some "5" → ∀ d, Event.sleep d ∈ evs → d = 5 * 1000000000) ∧
      (∀ w1 g1 w2 g2, readConfig w Globals.zero = (w1, g1, none) →
        prepareSkopeoSyncCmd w1 g1 = (w2, g2, none) →
        (w.lookupEnv "INTERVAL" = none →
          main n w = pollLoop g2 86400 n w2 ∧
          (0 < n → ∀ w3 repos, getRepoList w2 g2.srcConfig = (w3, repos, none) →
            Event.sleep (86400 * 1000000000) ∈ evs)) ∧
        (w.lookupEnv "INTERVAL" = some "5" →
          main n w = pollLoop g2 5 n w2 ∧
          (0 < n → ∀ w3 repos, getRepoList w2 g2.srcConfig = (w3, repos, none) →
            Event.sleep (5 * 1000000000) ∈ evs)) ∧
        (∀ v err, w.lookupEnv "INTERVAL" = some v → Atoi v = .error err →
          main n w = (w2, some ("ERROR: Unable to convert interval " ++ v ++ " to int "
            ++ err.Error w.quote)))) := by
  have hstart : ∃ evs, (main n w).1.trace = w.trace ++ evs := by
    obtain ⟨w2, evs, ht, -, hm⟩ := main_startup n w
    rcases hm with ⟨msg, hm⟩ | ⟨g, i, -, hm⟩
    · exact ⟨evs, by rw [hm]; exact ht⟩
    · obtain ⟨evs2, ht2, -, -⟩ := pollLoop_trace g i n w2
      exact ⟨evs ++ evs2, by rw [hm, ht2, ht, List.append_assoc]⟩
  obtain ⟨evs, ht⟩ := hstart
  have huniq : ∀ evs', (main n w).1.trace = w.trace ++ evs' → evs' = evs := fun evs' h =>
    List.append_cancel_left (h.symm.trans ht)
  have hsleep : ∀ interval, Atoi (intervalText w) = .ok interval →
      ∀ d, Event.sleep d ∈ evs → d = sleepDuration interval := by
    intro interval ha d hd
    obtain ⟨evs', ht', hs, -⟩ := main_sleeps n w interval ha
    rw [huniq evs' ht'] at hs
    exact hs d hd
  have hfirst : ∀ interval w1 g1 w2 g2, readConfig w Globals.zero = (w1, g1, none) →
      prepareSkopeoSyncCmd w1 g1 = (w2, g2, none) → Atoi (intervalText w) = .ok interval →
      main n w = pollLoop g2 interval n w2 ∧
        (0 < n → ∀ w3 repos, getRepoList w2 g2.srcConfig = (w3, repos, none) →
          Event.sleep (sleepDuration interval) ∈ evs) := by
    intro interval w1 g1 w2 g2 h1 h2 ha
    have hm := main_started n w w1 w2 g1 g2 h1 h2
    simp only [ha] at hm
    refine ⟨hm, fun hn w3 repos hg => ?_⟩
    obtain ⟨m, rfl⟩ : ∃ m, n = m + 1 := ⟨n - 1, by omega⟩
    obtain ⟨evs0, ht0, -⟩ := (readConfig_trace w Globals.zero).2
    obtain ⟨evs1, ht1, -⟩ := (prepareSkopeoSyncCmd_trace w1 g1).2
    rw [h1] at ht0
    rw [h2] at ht1
    simp only [] at ht0 ht1
    obtain ⟨evs2, ht2, -, -⟩ := pollLoop_trace g2 interval (m + 1) w2
    have hs := pollLoop_first_sleep g2 interval m w2 w3 repos hg evs2 ht2
    have ht3 : (main (m + 1) w).1.trace = w.trace ++ (evs0 ++ evs1 ++ evs2) := by
      rw [hm, ht2, ht1, ht0]
      simp
    rw [← huniq _ ht3]
    simp [hs]
  have hunset : w.lookupEnv "INTERVAL" = none → Atoi (intervalText w) = .ok 86400 := by
    intro henv
    unfold intervalText
    rw [henv]
    rfl
  have hfive : w.lookupEnv "INTERVAL" = some "5" → Atoi (intervalText w) = .ok 5 := by
    intro henv
    unfold intervalText
    rw [henv]
    rfl
  have hbad : ∀ v err, w.lookupEnv "INTERVAL" = some v → Atoi v = .error err →
      Atoi (intervalText w) = .error err ∧ intervalText w = v := by
    intro v err henv hv
    unfold intervalText
    rw [henv]
    exact ⟨hv, rfl⟩
  have d1 : sleepDuration 86400 = 86400 * 1000000000 := by decide
  have d2 : sleepDuration 5 = 5 * 1000000000 := by decide
  refine ⟨evs, ht, ?_, rfl, ?_, ?_, ?_⟩
  · intro v err henv hv
    obtain ⟨evs', ht', hmsg, hall⟩ := main_bad_interval n w err (hbad v err henv hv).1
    rw [huniq evs' ht'] at hall
    refine ⟨hmsg, fun e he => ?_⟩
    have hf := hall e he
    refine ⟨?_, ?_, ?_⟩ <;> intro x hx <;> rw [hx] at hf <;>
      simp [Event.isFileAccess] at hf
  · intro henv d hd
    rw [hsleep 86400 (hunset henv) d hd, d1]
  · intro henv d hd
    rw [hsleep 5 (hfive henv) d hd, d2]
  · intro w1 g1 w2 g2 h1 h2
    refine ⟨fun henv => ?_, fun henv => ?_, fun v err henv hv => ?_⟩
    · have := hfirst 86400 w1 g1 w2 g2 h1 h2 (hunset henv)
      rw [d1] at this
      exact this
    · have := hfirst 5 w1 g1 w2 g2 h1 h2 (hfive henv)
      rw [d2] at this
      exact this
    · have hm := main_started n w w1 w2 g1 g2 h1 h2
      obtain ⟨ha, hv'⟩ := hbad v err henv hv
      rw [ha] at hm
      simp only [hv'] at hm
      exact hm

/-- C5 at three starts with TLS on both sides and the catalog `img2`: without
`INTERVAL` the first iteration sleeps 86400 seconds, with `INTERVAL=5` it
sleeps 5 seconds and no sleep of two iterations has another length, and with
`INTERVAL=abc` the process ends with the message of the failed conversion. -/
theorem main_interval_resolution_witness :
    Event.sleep (86400 * 1000000000) ∈ (main 1 (startedWorld noEnv)).1.trace ∧
      Event.sleep (5 * 1000000000) ∈ (main 1 (startedWorld (intervalEnv "5"))).1.trace ∧
      (∀ d, Event.sleep d ∈ (main 2 (startedWorld (intervalEnv "5"))).1.trace →
        d = 5 * 1000000000) ∧
      (main 2 (startedWorld (intervalEnv "abc"))).2 =
        some ("ERROR: Unable to convert interval abc to int "
          ++ "strconv.Atoi: parsing \"abc\": invalid syntax") := by
  have key := fun (n : Nat) (env : String → Option String) =>
    main_interval_resolution n (startedWorld env)
  refine ⟨?_, ?_, ?_, ?_⟩
  · obtain ⟨evs, ht, -, -, -, -, h⟩ := key 1 noEnv
    rw [ht]
    exact List.mem_append_right _
      (((h (readConfig (startedWorld noEnv) Globals.zero).1
        (readConfig (startedWorld noEnv) Globals.zero).2.1 _ _ rfl rfl).1 rfl).2
        (by decide) _ ["img2"] rfl)
  · obtain ⟨evs, ht, -, -, -, -, h⟩ := key 1 (intervalEnv "5")
    rw [ht]
    exact List.mem_append_right _
      (((h (readConfig (startedWorld (intervalEnv "5")) Globals.zero).1
        (readConfig (startedWorld (intervalEnv "5")) Globals.zero).2.1 _ _ rfl rfl).2.1 rfl).2
        (by decide) _ ["img2"] rfl)
  · obtain ⟨evs, ht, -, -, -, h, -⟩ := key 2 (intervalEnv "5")
    rw [ht]
    intro d hd
    exact h rfl d (by simpa [startedWorld, sampleWorld] using hd)
  · obtain ⟨evs, -, -, -, -, -, h⟩ := key 2 (intervalEnv "abc")
    rw [(h (readConfig (startedWorld (intervalEnv "abc")) Globals.zero).1
      (readConfig (startedWorld (intervalEnv "abc")) Globals.zero).2.1 _ _ rfl rfl).2.2
      "abc" _ rfl rfl]
    rfl

/-- C9: when the catalog answers with a status other than 200, `getRepoList`
returns no repositories and an error that carries the status, and the poll
loop ends the process with a fatal message after the request, without
running any command. -/
theorem catalog_non200_is_fatal (w : World) (g : Globals) (interval : Int) (n code : Nat)
    (status : String) (body : Except String String)
    (hresp : w.httpDo w.httpCalls (catalogURL g.srcConfig) = .response code status body)
    (hcode : code ≠ 200) :
    (getRepoList w g.srcConfig).2 = ([], some ("HTTP response status: " ++ status)) ∧
      (pollLoop g interval (n + 1) w).2 =
        some ("ERROR: Unable to get source repo list HTTP response status: " ++ status) ∧
      (pollLoop g interval (n + 1) w).1.trace =
        w.trace ++ [Event.httpGet (catalogURL g.srcConfig)] ∧
      (pollLoop g interval (n + 1) w).1.runCalls = w.runCalls := by
  have hg : getRepoList w g.srcConfig =
      ({ w with httpCalls := w.httpCalls + 1 }.emit (Event.httpGet (catalogURL g.srcConfig)), [],
        some ("HTTP response status: " ++ status)) := by
    unfold getRepoList
    simp only [hresp, ne_eq, hcode, not_false_eq_true, if_true]
  refine ⟨by rw [hg], ?_, ?_, ?_⟩ <;> simp only [pollLoop, hg] <;> rfl

/-- C9 at a catalog that answers 500: the process ends after the request and
no command is run. -/
theorem catalog_non200_is_fatal_witness :
    (pollLoop sampleGlobals 5 3
        (sampleWorld noEnv docMissingSsl 500 "500 Internal Server Error" ["img2"] [])).2 =
        some ("ERROR: Unable to get source repo list HTTP response status: "
          ++ "500 Internal Server Error") ∧
      (pollLoop sampleGlobals 5 3
        (sampleWorld noEnv docMissingSsl 500 "500 Internal Server Error" ["img2"] [])).1.trace =
        [] ++ [Event.httpGet (catalogURL sampleGlobals.srcConfig)] :=
  ⟨(catalog_non200_is_fatal
      (sampleWorld noEnv docMissingSsl 500 "500 Internal Server Error" ["img2"] [])
      sampleGlobals 5 2 500 "500 Internal Server Error" (.ok "") rfl (by decide)).2.1,
    (catalog_non200_is_fatal
      (sampleWorld noEnv docMissingSsl 500 "500 Internal Server Error" ["img2"] [])
      sampleGlobals 5 2 500 "500 Internal Server Error" (.ok "") rfl (by decide)).2.2.1⟩

/-! ## The sleep duration -/

/-- For an interval from 0 to 9223372036 seconds the duration is the interval
in nanoseconds. -/
theorem sleepDuration_exact (n : Int) (h0 : 0 ≤ n) (h1 : n ≤ 9223372036) :
    sleepDuration n = n * 1000000000 := by
  unfold sleepDuration wrapInt64 Second
  have e1 : (n + 2 ^ 63) % 2 ^ 64 = n + 2 ^ 63 := by
    apply Int.emod_eq_of_lt <;> omega
  rw [e1]
  have e2 : (n + 2 ^ 63 - 2 ^ 63) = n := by omega
  rw [e2]
  have e3 : (n * 1000000000 + 2 ^ 63) % 2 ^ 64 = n * 1000000000 + 2 ^ 63 := by
    apply Int.emod_eq_of_lt <;> omega
  rw [e3]
  omega

/-- C10 (defect of the code): `INTERVAL=9223372037` is accepted by `Atoi`,
and the duration computed from it has wrapped around: it is negative and not
9223372037 seconds. -/
theorem sleepDuration_wraps_around :
    Atoi "9223372037" = .ok 9223372037 ∧
      sleepDuration 9223372037 = -9223372036709551616 ∧
      sleepDuration 9223372037 ≠ 9223372037 * 1000000000 ∧
      Event.sleep (-9223372036709551616) ∈
        (main 1 (sampleWorld (intervalEnv "9223372037") docMissingSsl 200 "200 OK" ["img2"]
          [])).1.trace :=
  ⟨rfl, by decide, by decide, by decide⟩

/-! ## Words of the command line -/

theorem splitChars_append_sep (sep : Char) (a b : List Char) :
    splitChars sep (a ++ sep :: b) = splitChars sep a ++ splitChars sep b := by
  induction a with
  | nil => simp [splitChars]
  | cons c cs ih =>
    have hu : ∀ l : List Char, splitChars sep (c :: l) =
        if c = sep then [] :: splitChars sep l
        else match splitChars sep l with
          | [] => [[c]]
          | p :: ps => (c :: p) :: ps := fun l => by rw [splitChars]
    rw [List.cons_append, hu, hu, ih]
    by_cases hc : c = sep
    · simp only [if_pos hc, List.cons_append]
    · simp only [if_neg hc]
      cases hs : splitChars sep cs with
      | nil => exact absurd hs (splitChars_ne_nil sep cs)
      | cons p ps => rfl

theorem blankPieces_append_blank (a b : String) :
    blankPieces (a ++ (" " ++ b)) = blankPieces a ++ blankPieces b := by
  unfold blankPieces
  have h : (a ++ (" " ++ b)).data = a.data ++ ' ' :: b.data := by
    simp only [String.data_append]
    rfl
  rw [h, splitChars_append_sep, List.filter_append, List.map_append]

theorem blankPieces_plain (s : String) (h : ' ' ∉ s.data) :
    blankPieces s = if s = "" then [] else [s] := by
  unfold blankPieces
  rw [splitChars_of_not_mem _ _ h]
  by_cases hs : s = ""
  · subst hs
    rfl
  · have hd : s.data ≠ [] := fun e => hs (String.ext e)
    simp [hs, hd]

theorem blankPieces_plain_ne (s : String) (h : ' ' ∉ s.data) (hs : s ≠ "") :
    blankPieces s = [s] := by
  rw [blankPieces_plain s h, if_neg hs]

theorem not_blank_mem_append (a b : String) (ha : ' ' ∉ a.data) (hb : ' ' ∉ b.data) :
    ' ' ∉ (a ++ b).data := by
  simp [String.data_append, ha, hb]

theorem append_ne_empty_left (a b : String) (ha : a ≠ "") : a ++ b ≠ "" := by
  intro h
  apply ha
  apply String.ext
  have := congrArg String.data h
  simp only [String.data_append] at this
  exact (List.append_eq_nil.mp this).1

/-! ## The command built by prepareSkopeoSyncCmd -/

theorem prepareSkopeoSyncCmd_result (w : World) (g : Globals) :
    prepareSkopeoSyncCmd w g =
      if (g.srcConfig.Ssl && g.destConfig.Ssl) = true then
        (w, { g with skopeoSyncCmd := "skopeo sync" ++ " " ++ credArgs g
          ++ (if g.srcConfig.Ssl then "" else " --src-tls-verify=false")
          ++ (if g.destConfig.Ssl then "" else " --dest-tls-verify=false")
          ++ " --src " ++ g.srcConfig.Transport ++ " --dest " ++ g.destConfig.Transport }, none)
      else if (lookupFile w.files "registry.conf").isNone = true then
        (w.emit (Event.stat "registry.conf"), g, some "File registry.conf not present")
      else
        (w.emit (Event.stat "registry.conf"),
          { g with skopeoSyncCmd := "skopeo sync" ++ " --registries-conf=registry.conf" ++ " "
            ++ credArgs g
            ++ (if g.srcConfig.Ssl then "" else " --src-tls-verify=false")
            ++ (if g.destConfig.Ssl then "" else " --dest-tls-verify=false")
            ++ " --src " ++ g.srcConfig.Transport ++ " --dest " ++ g.destConfig.Transport },
          none) := by
  unfold prepareSkopeoSyncCmd
  cases hs : g.srcConfig.Ssl <;> cases hd : g.destConfig.Ssl <;>
    cases hf : (lookupFile w.files "registry.conf").isNone <;>
    simp [hf, World.emit]

theorem credArgs_eq (g : Globals) :
    credArgs g =
      (if g.srcConfig.User = "" then "" else "--src-creds" ++ (" " ++ credValue g.srcConfig))
        ++ (if g.destConfig.User = "" then ""
          else " " ++ ("--dest-creds" ++ (" " ++ credValue g.destConfig))) := by
  have e1 : ("--src-creds " : String) = "--src-creds" ++ " " := by decide
  have e2 : (" --dest-creds " : String) = " " ++ ("--dest-creds" ++ " ") := by decide
  unfold credArgs credValue
  by_cases h1 : g.srcConfig.User = "" <;> by_cases h2 : g.srcConfig.Pass = "" <;>
    by_cases h3 : g.destConfig.User = "" <;> by_cases h4 : g.destConfig.Pass = "" <;>
    simp only [h1, h2, h3, h4, ne_eq, not_true_eq_false, not_false_eq_true, if_true, if_false,
      e1, e2, String.append_assoc, String.append_empty, String.empty_append]

theorem credValue_plain (c : Config) (h : BlankFree c) (hu : c.User ≠ "") :
    ' ' ∉ (credValue c).data ∧ credValue c ≠ "" ∧ (credValue c).data.head? ≠ some '-' := by
  obtain ⟨h1, h2, -, h4, -⟩ := h
  have hne : c.User.data ≠ [] := fun e => hu (String.ext e)
  unfold credValue
  split_ifs
  · exact ⟨h1, hu, h4⟩
  · refine ⟨?_, append_ne_empty_left _ _ (append_ne_empty_left _ _ hu), ?_⟩
    · simp only [String.data_append, List.mem_append, not_or]
      exact ⟨⟨h1, by decide⟩, h2⟩
    · simp only [String.data_append, List.append_assoc]
      cases hd : c.User.data with
      | nil => exact absurd hd hne
      | cons x xs =>
        rw [hd] at h4
        simpa using h4

theorem blankPieces_credArgs (g : Globals) (hs : BlankFree g.srcConfig)
    (hd : BlankFree g.destConfig) :
    blankPieces (credArgs g) =
      credWords "--src-creds" g.srcConfig ++ credWords "--dest-creds" g.destConfig := by
  have w0 : blankPieces "" = [] := by decide
  have w1 : blankPieces "--src-creds" = ["--src-creds"] := by decide
  have w2 : blankPieces "--dest-creds" = ["--dest-creds"] := by decide
  have e0 : ∀ x : String, x = "" ++ x := fun x => (String.empty_append x).symm
  rw [credArgs_eq]
  unfold credWords
  by_cases h1 : g.srcConfig.User = "" <;> by_cases h3 : g.destConfig.User = ""
  · simp only [h1, h3, if_true, String.append_empty, w0, List.append_nil]
  · obtain ⟨p1, p2, -⟩ := credValue_plain _ hd h3
    simp only [h1, h3, if_true, if_false, blankPieces_append_blank, w0, w2,
      blankPieces_plain_ne _ p1 p2, List.nil_append, List.singleton_append]
  · obtain ⟨p1, p2, -⟩ := credValue_plain _ hs h1
    simp only [h1, h3, if_true, if_false, String.append_empty, blankPieces_append_blank, w1,
      blankPieces_plain_ne _ p1 p2, List.append_nil, List.singleton_append]
  · obtain ⟨p1, p2, -⟩ := credValue_plain _ hs h1
    obtain ⟨q1, q2, -⟩ := credValue_plain _ hd h3
    simp only [h1, h3, if_false, String.append_assoc, blankPieces_append_blank, w1, w2,
      blankPieces_plain_ne _ p1 p2, blankPieces_plain_ne _ q1 q2, List.singleton_append,
      List.cons_append,
      List.nil_append]

theorem prepareSkopeoSyncCmd_ok (w w' : World) (g g' : Globals)
    (h : prepareSkopeoSyncCmd w g = (w', g', none)) :
    g'.skopeoSyncCmd =
        "skopeo sync"
          ++ (if (g.srcConfig.Ssl && g.destConfig.Ssl) = true then ""
            else " --registries-conf=registry.conf")
          ++ " " ++ credArgs g
          ++ (if g.srcConfig.Ssl = true then "" else " --src-tls-verify=false")
          ++ (if g.destConfig.Ssl = true then "" else " --dest-tls-verify=false")
          ++ " --src " ++ g.srcConfig.Transport ++ " --dest " ++ g.destConfig.Transport ∧
      g'.srcConfig = g.srcConfig ∧ g'.destConfig = g.destConfig := by
  rw [prepareSkopeoSyncCmd_result] at h
  by_cases hsec : (g.srcConfig.Ssl && g.destConfig.Ssl) = true
  · rw [if_pos hsec] at h
    simp only [Prod.mk.injEq, and_true] at h
    rw [← h.2]
    simp only [hsec, if_true, String.append_empty, and_self, and_true]
  · rw [if_neg hsec] at h
    by_cases hf : (lookupFile w.files "registry.conf").isNone = true
    · rw [if_pos hf] at h
      simp at h
    · rw [if_neg hf] at h
      simp only [Prod.mk.injEq, and_true] at h
      rw [← h.2]
      simp only [hsec, if_false, and_self, and_true, Bool.false_eq_true]

theorem blankPieces_skopeoSyncCmd (w w' : World) (g g' : Globals)
    (h : prepareSkopeoSyncCmd w g = (w', g', none))
    (hs : BlankFree g.srcConfig) (hd : BlankFree g.destConfig) :
    blankPieces g'.skopeoSyncCmd =
      ["skopeo", "sync"]
        ++ (if (g.srcConfig.Ssl && g.destConfig.Ssl) = true then []
          else ["--registries-conf=registry.conf"])
        ++ (credWords "--src-creds" g.srcConfig ++ credWords "--dest-creds" g.destConfig)
        ++ (if g.srcConfig.Ssl = true then [] else ["--src-tls-verify=false"])
        ++ (if g.destConfig.Ssl = true then [] else ["--dest-tls-verify=false"])
        ++ ("--src" :: blankPieces g.srcConfig.Transport)
        ++ ("--dest" :: blankPieces g.destConfig.Transport) := by
  have e1 : ("skopeo sync" : String) = "skopeo" ++ (" " ++ "sync") := by decide
  have e2 : (" --registries-conf=registry.conf" : String)
      = " " ++ "--registries-conf=registry.conf" := by decide
  have e3 : (" --src-tls-verify=false" : String) = " " ++ "--src-tls-verify=false" := by decide
  have e4 : (" --dest-tls-verify=false" : String) = " " ++ "--dest-tls-verify=false" := by decide
  have e5 : (" --src " : String) = " " ++ ("--src" ++ " ") := by decide
  have e6 : (" --dest " : String) = " " ++ ("--dest" ++ " ") := by decide
  have w1 : blankPieces "skopeo" = ["skopeo"] := by decide
  have w2 : blankPieces "sync" = ["sync"] := by decide
  have w3 : blankPieces "--registries-conf=registry.conf" = ["--registries-conf=registry.conf"] := by
    decide
  have w4 : blankPieces "--src-tls-verify=false" = ["--src-tls-verify=false"] := by decide
  have w5 : blankPieces "--dest-tls-verify=false" = ["--dest-tls-verify=false"] := by decide
  have w6 : blankPieces "--src" = ["--src"] := by decide
  have w7 : blankPieces "--dest" = ["--dest"] := by decide
  have hc := blankPieces_credArgs g hs hd
  rw [(prepareSkopeoSyncCmd_ok w w' g g' h).1]
  cases hss : g.srcConfig.Ssl <;> cases hds : g.destConfig.Ssl <;>
    simp only [Bool.and_true, Bool.and_false, Bool.true_and, Bool.false_and,
      if_true, if_false, Bool.false_eq_true, e1, e2, e3, e4, e5, e6, String.append_assoc,
      String.append_empty, String.empty_append, blankPieces_append_blank, w1, w2, w3, w4, w5, w6, w7,
      hc, List.append_assoc, List.cons_append, List.nil_append, List.append_nil]

theorem ne_of_head_dash (f t : String) (hf : f.data.head? = some '-')
    (ht : t.data.head? ≠ some '-') : f ≠ t := by
  intro e
  rw [e] at hf
  exact ht hf

theorem dash_not_mem_blankPieces_plain (f t : String) (hf : f.data.head? = some '-')
    (hb : ' ' ∉ t.data) (ht : t.data.head? ≠ some '-') : f ∉ blankPieces t := by
  rw [blankPieces_plain t hb]
  split_ifs
  · simp
  · simpa using ne_of_head_dash f t hf ht

theorem dash_mem_credWords (f flag : String) (c : Config) (hf : f.data.head? = some '-')
    (hc : BlankFree c) : f ∈ credWords flag c ↔ (c.User ≠ "" ∧ f = flag) := by
  unfold credWords
  by_cases hu : c.User = ""
  · simp [hu]
  · have := ne_of_head_dash f _ hf (credValue_plain c hc hu).2.2
    simp [hu, this]

/-- Which pieces starting with a dash the command has. -/
theorem dash_mem_blankPieces_skopeoSyncCmd (w w' : World) (g g' : Globals)
    (h : prepareSkopeoSyncCmd w g = (w', g', none))
    (hs : BlankFree g.srcConfig) (hd : BlankFree g.destConfig)
    (f : String) (hf : f.data.head? = some '-') :
    f ∈ blankPieces g'.skopeoSyncCmd ↔
      (f = "--registries-conf=registry.conf" ∧
          (g.srcConfig.Ssl = false ∨ g.destConfig.Ssl = false))
        ∨ (f = "--src-creds" ∧ g.srcConfig.User ≠ "")
        ∨ (f = "--dest-creds" ∧ g.destConfig.User ≠ "")
        ∨ (f = "--src-tls-verify=false" ∧ g.srcConfig.Ssl = false)
        ∨ (f = "--dest-tls-verify=false" ∧ g.destConfig.Ssl = false)
        ∨ f = "--src" ∨ f = "--dest" := by
  have n1 : f ≠ "skopeo" := ne_of_head_dash f _ hf (by decide)
  have n2 : f ≠ "sync" := ne_of_head_dash f _ hf (by decide)
  have t1 := dash_not_mem_blankPieces_plain f _ hf hs.2.2.1 hs.2.2.2.2
  have t2 := dash_not_mem_blankPieces_plain f _ hf hd.2.2.1 hd.2.2.2.2
  rw [blankPieces_skopeoSyncCmd w w' g g' h hs hd]
  simp only [List.mem_append, List.mem_cons, dash_mem_credWords f _ _ hf hs,
    dash_mem_credWords f _ _ hf hd, n1, n2, t1, t2, List.mem_nil_iff, false_or, or_false]
  cases hss : g.srcConfig.Ssl <;> cases hds : g.destConfig.Ssl <;> simp <;> tauto

/-! ## The arguments of the command -/

theorem splitWith_eq_splitChars (l : List Char)
    (h : ∀ c ∈ l, isPlainChar c = true ∨ c = ' ') :
    splitWith isBlank l = splitChars ' ' l := by
  induction l with
  | nil => rfl
  | cons c cs ih =>
    have hcs : ∀ x ∈ cs, isPlainChar x = true ∨ x = ' ' := fun x hx =>
      h x (List.mem_cons_of_mem _ hx)
    have hc : (isBlank c = true) ↔ c = ' ' := by
      constructor
      · intro hb
        rcases h c (List.mem_cons_self _ _) with hp | hp
        · simp only [isBlank, Bool.or_eq_true, decide_eq_true_eq] at hb
          rcases hb with hb | hb
          · exact hb
          · rw [hb] at hp
            exact absurd hp (by decide)
        · exact hp
      · intro hb
        rw [hb]
        decide
    unfold splitWith splitChars
    rw [ih hcs]
    by_cases hb : c = ' '
    · rw [if_pos (hc.mpr hb), if_pos hb]
    · rw [if_neg (fun hx => hb (hc.mp hx)), if_neg hb]

theorem blankFields_eq (s : String) (h : SimpleLine s) : blankFields s = blankPieces s := by
  unfold blankFields blankPieces
  rw [splitWith_eq_splitChars s.data h]

theorem simpleLine_append (a b : String) : SimpleLine (a ++ b) ↔ SimpleLine a ∧ SimpleLine b := by
  unfold SimpleLine
  simp only [String.data_append, List.mem_append]
  constructor
  · intro h
    exact ⟨fun c hc => h c (Or.inl hc), fun c hc => h c (Or.inr hc)⟩
  · rintro ⟨ha, hb⟩ c (hc | hc)
    · exact ha c hc
    · exact hb c hc

theorem simpleLine_of_plain (s : String) (h : s.data.all isPlainChar = true) : SimpleLine s :=
  fun c hc => Or.inl (List.all_eq_true.mp h c hc)

theorem blankFree_of_plain (c : Config) (h : PlainFields c) : BlankFree c := by
  obtain ⟨h1, h2, h3, h4, h5⟩ := h
  have key : ∀ s : String, s.data.all isPlainChar = true → ' ' ∉ s.data := fun s hs hm =>
    absurd (List.all_eq_true.mp hs ' ' hm) (by decide)
  exact ⟨key _ h1, key _ h2, key _ h3, h4, h5⟩

theorem simpleLine_credArgs (g : Globals) (hs : PlainFields g.srcConfig)
    (hd : PlainFields g.destConfig) : SimpleLine (credArgs g) := by
  have l1 : SimpleLine "--src-creds" := by unfold SimpleLine; decide
  have l2 : SimpleLine "--dest-creds" := by unfold SimpleLine; decide
  have l3 : SimpleLine " " := by unfold SimpleLine; decide
  have l4 : SimpleLine "" := by unfold SimpleLine; decide
  have l5 : SimpleLine ":" := by unfold SimpleLine; decide
  have u1 := simpleLine_of_plain _ hs.1
  have p1 := simpleLine_of_plain _ hs.2.1
  have u2 := simpleLine_of_plain _ hd.1
  have p2 := simpleLine_of_plain _ hd.2.1
  rw [credArgs_eq]
  unfold credValue
  split_ifs <;> simp only [simpleLine_append, l1, l2, l3, l4, l5, u1, p1, u2, p2, and_self]

theorem simpleLine_skopeoSyncCmd (w w' : World) (g g' : Globals)
    (h : prepareSkopeoSyncCmd w g = (w', g', none))
    (hs : PlainFields g.srcConfig) (hd : PlainFields g.destConfig) :
    SimpleLine g'.skopeoSyncCmd := by
  have l1 : SimpleLine "skopeo sync" := by unfold SimpleLine; decide
  have l2 : SimpleLine " --registries-conf=registry.conf" := by unfold SimpleLine; decide
  have l3 : SimpleLine " " := by unfold SimpleLine; decide
  have l4 : SimpleLine "" := by unfold SimpleLine; decide
  have l5 : SimpleLine " --src-tls-verify=false" := by unfold SimpleLine; decide
  have l6 : SimpleLine " --dest-tls-verify=false" := by unfold SimpleLine; decide
  have l7 : SimpleLine " --src " := by unfold SimpleLine; decide
  have l8 : SimpleLine " --dest " := by unfold SimpleLine; decide
  have t1 := simpleLine_of_plain _ hs.2.2.1
  have t2 := simpleLine_of_plain _ hd.2.2.1
  have hc := simpleLine_credArgs g hs hd
  rw [(prepareSkopeoSyncCmd_ok w w' g g' h).1]
  split_ifs <;> simp only [simpleLine_append, l1, l2, l3, l4, l5, l6, l7, l8, t1, t2, hc, and_self]

/-- The arguments of the command built from plain fields. -/
theorem shellArgs_skopeoSyncCmd (w w' : World) (g g' : Globals)
    (h : prepareSkopeoSyncCmd w g = (w', g', none))
    (hs : PlainFields g.srcConfig) (hd : PlainFields g.destConfig) :
    shellArgs g'.skopeoSyncCmd = some (blankPieces g'.skopeoSyncCmd) ∧
      blankPieces g'.skopeoSyncCmd =
        ["skopeo", "sync"]
          ++ (if (g.srcConfig.Ssl && g.destConfig.Ssl) = true then []
            else ["--registries-conf=registry.conf"])
          ++ (credWords "--src-creds" g.srcConfig ++ credWords "--dest-creds" g.destConfig)
          ++ (if g.srcConfig.Ssl = true then [] else ["--src-tls-verify=false"])
          ++ (if g.destConfig.Ssl = true then [] else ["--dest-tls-verify=false"])
          ++ ("--src" :: transportWords g.srcConfig)
          ++ ("--dest" :: transportWords g.destConfig) := by
  have hbs := blankFree_of_plain _ hs
  have hbd := blankFree_of_plain _ hd
  have hw := blankPieces_skopeoSyncCmd w w' g g' h hbs hbd
  have hsimple := simpleLine_skopeoSyncCmd w w' g g' h hs hd
  have hall : g'.skopeoSyncCmd.data.all (fun c => isPlainChar c || isBlank c) = true := by
    rw [List.all_eq_true]
    intro c hc
    rcases hsimple c hc with hp | hp
    · simp [hp]
    · rw [hp]; decide
  constructor
  · unfold shellArgs
    rw [if_pos hall, blankFields_eq _ hsimple, hw]
    simp only [List.cons_append, List.nil_append]
    rw [if_neg (by decide)]
  · rw [hw, blankPieces_plain _ hbs.2.2.1, blankPieces_plain _ hbd.2.2.1]
    rfl

end RegistryMirror
